import Mathlib

/-!
Verification development for the krishi-sakha advisory pipeline.

Shallow embedding of the Advisory Pipeline of the repository:
the query preprocessor (`src/utils/queryPreprocessor.ts`), the data
retrieval agent (`src/services/dataRetrieval.ts`) and the
retrieval-augmented generation system (`src/services/ragSystem.ts`).
Text is modelled as `List Char`; JavaScript numbers used by the scoring
code are modelled as `ℚ`; wall-clock instants as `ℕ` milliseconds;
JavaScript `undefined`/missing record fields as `Option`; thrown
exceptions as `Except`.  `Math.random`-derived mock payloads are
modelled as externally supplied inputs.
-/

namespace KrishiSakha

/-! ## Character classes

`isJsWs` models the JavaScript regex class `\s`; `isWordChar` models
`\w` (the regexes in the source are compiled without the unicode flag,
so `\w` is ASCII-only). -/

def isJsWs (c : Char) : Bool :=
  c == ' ' || c == '\t' || c == '\n' || c.toNat == 13 || c.toNat == 11 ||
  c.toNat == 12 || c.toNat == 0xa0 || c.toNat == 0x1680 ||
  (0x2000 ≤ c.toNat && c.toNat ≤ 0x200a) || c.toNat == 0x2028 ||
  c.toNat == 0x2029 || c.toNat == 0x202f || c.toNat == 0x205f ||
  c.toNat == 0x3000 || c.toNat == 0xfeff

def isWordChar (c : Char) : Bool :=
  (65 ≤ c.toNat && c.toNat ≤ 90) || (97 ≤ c.toNat && c.toNat ≤ 122) ||
  (48 ≤ c.toNat && c.toNat ≤ 57) || c == '_'

/-- The Indic script ranges kept by the cleaning step of
`preprocessQuery` (the character class of the strip regex at
queryPreprocessor step 1): `ऀ-ॿ`, `ঀ-৿`,
`਀-੿`, `઀-૿`, `଀-୿`, `஀-௿`,
`ఀ-౿`, `ಀ-೿`, `ഀ-ൿ`, `຀-໿`. -/
def inKeptScriptRange (c : Char) : Bool :=
  (0x900 ≤ c.toNat && c.toNat ≤ 0x97f) || (0x980 ≤ c.toNat && c.toNat ≤ 0x9ff) ||
  (0xa00 ≤ c.toNat && c.toNat ≤ 0xa7f) || (0xa80 ≤ c.toNat && c.toNat ≤ 0xaff) ||
  (0xb00 ≤ c.toNat && c.toNat ≤ 0xb7f) || (0xb80 ≤ c.toNat && c.toNat ≤ 0xbff) ||
  (0xc00 ≤ c.toNat && c.toNat ≤ 0xc7f) || (0xc80 ≤ c.toNat && c.toNat ≤ 0xcff) ||
  (0xd00 ≤ c.toNat && c.toNat ≤ 0xd7f) || (0xe80 ≤ c.toNat && c.toNat ≤ 0xeff)

/-- The punctuation collapsed by the `([.!?]){2,}` regex. -/
def isPunct3 (c : Char) : Bool :=
  c == '.' || c == '!' || c == '?'

/-- The basic punctuation kept by the strip regex: `.`, `,`, `!`, `?`. -/
def isBasicPunct (c : Char) : Bool :=
  c == '.' || c == ',' || c == '!' || c == '?'

/-- A character survives the strip regex
`[^\w\sऀ-ॿ…຀-໿.,!?]` of queryPreprocessor step 1. -/
def allowedChar (c : Char) : Bool :=
  isWordChar c || isJsWs c || inKeptScriptRange c || isBasicPunct c

/-! ## The cleaning steps of `preprocessQuery` (queryPreprocessor step 1) -/

/-- `String.prototype.trim`. -/
def jsTrim (l : List Char) : List Char :=
  ((l.dropWhile (fun c => isJsWs c)).reverse.dropWhile (fun c => isJsWs c)).reverse

/-- Worker for `collapseWs`; the flag records whether the previous
character belonged to a whitespace run already replaced by `' '`. -/
def collapseWsAux : Bool → List Char → List Char
  | _, [] => []
  | prevWs, c :: cs =>
    if isJsWs c then
      if prevWs then collapseWsAux true cs else ' ' :: collapseWsAux true cs
    else c :: collapseWsAux false cs

/-- `.replace(/\s+/g, ' ')`: every maximal whitespace run becomes one space. -/
def collapseWs (l : List Char) : List Char := collapseWsAux false l

/-- `.replace(/[^\w\s…]/g, '')`. -/
def stripDisallowed (l : List Char) : List Char := l.filter allowedChar

/-- `.replace(/([.!?]){2,}/g, '$1')`: each maximal run of `[.!?]`
characters is replaced by its last character (a run of length one is its
own last character); equivalently, a `[.!?]` character is dropped
whenever the next character is also in `[.!?]`. -/
def collapsePunct : List Char → List Char
  | [] => []
  | [c] => [c]
  | c :: d :: cs =>
    if isPunct3 c && isPunct3 d then collapsePunct (d :: cs)
    else c :: collapsePunct (d :: cs)

/-- Emission of one maximal run of `n` copies of `c` for
`.replace(/(.)\1{3,}/g, '$1$1')`: runs of length ≥ 4 keep two
characters (`.` does not match a newline, hence the `c ≠ '\n'` guard). -/
def emitRun (c : Char) (n : Nat) : List Char :=
  if 4 ≤ n ∧ c ≠ '\n' then [c, c] else List.replicate n c

/-- Worker for `collapseReps`: `c` is the character of the current run,
`n` how many copies of it have been read. -/
def collapseRepsAux (c : Char) (n : Nat) : List Char → List Char
  | [] => emitRun c n
  | d :: ds =>
    if d = c then collapseRepsAux c (n + 1) ds
    else emitRun c n ++ collapseRepsAux d 1 ds

/-- `.replace(/(.)\1{3,}/g, '$1$1')`. -/
def collapseReps : List Char → List Char
  | [] => []
  | c :: cs => collapseRepsAux c 1 cs

/-- `String.prototype.toLowerCase`, restricted to ASCII: the only cased
characters surviving the strip step are ASCII letters. -/
def jsToLower (c : Char) : Char :=
  if 65 ≤ c.toNat ∧ c.toNat ≤ 90 then Char.ofNat (c.toNat + 32) else c

def toLowerStr (l : List Char) : List Char := l.map jsToLower

/-- The whole chained cleaning expression of queryPreprocessor step 1:
trim, collapse whitespace, strip disallowed characters, collapse
excessive punctuation, reduce repeated characters, lowercase. -/
def cleanText (q : List Char) : List Char :=
  toLowerStr (collapseReps (collapsePunct (stripDisallowed (collapseWs (jsTrim q)))))

/-! ## Whole-word dictionary replacement

`correctAgricultureTerms` and `transliterateHinglishWords` both loop
over a dictionary and call `text.replace(new RegExp('\\b' + key + '\\b', 'gi'), value)`.
Since every key consists of `\w` characters only, such a regex matches
exactly the maximal `\w`-runs (words) that equal the key up to ASCII
case.  `replaceWordAux` scans the text, accumulating the current word
reversed in `acc`. -/

def lowerEq (w k : List Char) : Bool := w.map jsToLower == k

def emitWord (k v : List Char) (acc : List Char) : List Char :=
  if lowerEq acc.reverse k then v else acc.reverse

def replaceWordAux (k v : List Char) : List Char → List Char → List Char
  | acc, [] => emitWord k v acc
  | acc, c :: cs =>
    if isWordChar c then replaceWordAux k v (c :: acc) cs
    else emitWord k v acc ++ c :: replaceWordAux k v [] cs

/-- One pass `text.replace(/\bkey\b/gi, value)` for a `\w`-only key. -/
def replaceWord (k v : List Char) (l : List Char) : List Char :=
  replaceWordAux k v [] l

/-- The `agricultureTerms` misspelling-correction dictionary. -/
def agricultureTerms : List (String × String) :=
  [("fertlizer", "fertilizer"), ("fertliser", "fertilizer"),
   ("pestcide", "pesticide"), ("irigation", "irrigation"),
   ("irigashun", "irrigation"), ("cropp", "crop"), ("soyl", "soil"),
   ("watr", "water"), ("pani", "water"), ("khad", "fertilizer"),
   ("keet", "pest"), ("beej", "seed"), ("fasal", "crop")]

/-- `correctAgricultureTerms`: sequential whole-word replacement of each
dictionary key. -/
def correctAgricultureTerms (l : List Char) : List Char :=
  agricultureTerms.foldl (fun acc p => replaceWord p.1.toList p.2.toList acc) l

/-- The `hinglishToHindi` dictionary of `transliterateHinglishWords`. -/
def hinglishToHindi : List (String × String) :=
  [("pani", "पानी"), ("paani", "पानी"), ("khad", "खाद"), ("khaad", "खाद"),
   ("keet", "कीट"), ("kisan", "किसान"), ("fasal", "फसल"), ("mitti", "मिट्टी"),
   ("zameen", "ज़मीन"), ("gaay", "गाय"), ("bhains", "भैंस"), ("kaise", "कैसे"),
   ("kya", "क्या"), ("hai", "है"), ("kar", "कर"), ("ke", "के"), ("ki", "की"),
   ("ka", "का"), ("mein", "में"), ("se", "से")]

def transliterateHinglishWords (l : List Char) : List Char :=
  hinglishToHindi.foldl (fun acc p => replaceWord p.1.toList p.2.toList acc) l

/-! ## Analysis predicates for the idempotence question -/

/-- Whether a list starts with a `[.!?]` character. -/
def punctHead : List Char → Bool
  | [] => false
  | c :: _ => isPunct3 c

/-- No two adjacent `[.!?]` characters (the fixpoint condition of
`collapsePunct`). -/
def noAdjPunct : List Char → Bool
  | [] => true
  | c :: cs => (!(isPunct3 c && punctHead cs)) && noAdjPunct cs

/-- Whether some maximal `\w`-run of `acc.reverse ++ l` (with `acc` the
reversed current word) equals the key `k` up to ASCII case; mirrors the
scan of `replaceWordAux`. -/
def hasWordAux (k : List Char) : List Char → List Char → Bool
  | acc, [] => lowerEq acc.reverse k
  | acc, c :: cs =>
    if isWordChar c then hasWordAux k (c :: acc) cs
    else lowerEq acc.reverse k || hasWordAux k [] cs

/-- Whether some maximal `\w`-run of `l` equals `k` up to ASCII case. -/
def hasWord (k l : List Char) : Bool := hasWordAux k [] l

/-- The dictionary loop shared by `correctAgricultureTerms` and
`transliterateHinglishWords`. -/
def dictFold (d : List (String × String)) (l : List Char) : List Char :=
  d.foldl (fun acc p => replaceWord p.1.toList p.2.toList acc) l

/-! ## Hinglish detection -/

/-- Worker extracting the maximal `\w`-runs of a text. -/
def wordsAux : List Char → List Char → List (List Char)
  | acc, [] => if acc.isEmpty then [] else [acc.reverse]
  | acc, c :: cs =>
    if isWordChar c then wordsAux (c :: acc) cs
    else if acc.isEmpty then wordsAux [] cs else acc.reverse :: wordsAux [] cs

def wordsOf (l : List Char) : List (List Char) := wordsAux [] l

/-- First regex alternation list of `containsHinglishPattern`
(romanized Hindi function words). -/
def hinglishFunctionWords : List String :=
  ["kaise", "kaisa", "kya", "kahan", "kyun", "kab", "koi", "hai", "hain",
   "kar", "karne", "ke", "ki", "ka", "mein", "main", "se", "pe", "par",
   "aur", "ya", "jo", "jab", "agar", "lekin", "phir"]

/-- Second regex alternation list of `containsHinglishPattern`
(romanized agriculture nouns). -/
def hinglishDomainWords : List String :=
  ["pani", "paani", "khad", "khaad", "keet", "kisan", "fasal", "bijli",
   "barish", "mitti", "zameen", "bagwani", "pashu", "gaay", "bhains"]

/-- `/\b(w1|w2|…)\b/i.test(text)` for `\w`-only alternatives: some
maximal word of the text equals one of the listed words up to case. -/
def matchesWordList (ws : List String) (l : List Char) : Bool :=
  (wordsOf l).any (fun w => ws.any (fun k => lowerEq w k.toList))

def containsHinglishPattern (l : List Char) : Bool :=
  matchesWordList hinglishFunctionWords l || matchesWordList hinglishDomainWords l

/-! ## Language detection and validation -/

def hasCharIn (lo hi : Nat) (l : List Char) : Bool :=
  l.any (fun c => lo ≤ c.toNat && c.toNat ≤ hi)

/-- Step 2 of `preprocessQuery`: script ranges in priority order, then
the hinglish heuristic, defaulting to English.  The third test uses the
range `਀-੿` (the Gurmukhi block) although its branch is
labelled Gujarati in the source. -/
def detectLanguageStep2 (cleaned : List Char) : String :=
  if hasCharIn 0x900 0x97f cleaned then "hin"
  else if hasCharIn 0x980 0x9ff cleaned then "ben"
  else if hasCharIn 0xa00 0xa7f cleaned then "guj"
  else if hasCharIn 0xb00 0xb7f cleaned then "ori"
  else if containsHinglishPattern cleaned then "hin-rom"
  else "eng"

/-- The character class of the validation regex at step 6:
`[a-zA-Zऀ-ॿঀ-৿਀-੿઀-૿଀-୿஀-௿ఀ-౿ಀ-೿ഀ-ൿ]`. -/
def validLetter (c : Char) : Bool :=
  (65 ≤ c.toNat && c.toNat ≤ 90) || (97 ≤ c.toNat && c.toNat ≤ 122) ||
  (0x900 ≤ c.toNat && c.toNat ≤ 0x97f) || (0x980 ≤ c.toNat && c.toNat ≤ 0x9ff) ||
  (0xa00 ≤ c.toNat && c.toNat ≤ 0xa7f) || (0xa80 ≤ c.toNat && c.toNat ≤ 0xaff) ||
  (0xb00 ≤ c.toNat && c.toNat ≤ 0xb7f) || (0xb80 ≤ c.toNat && c.toNat ≤ 0xbff) ||
  (0xc00 ≤ c.toNat && c.toNat ≤ 0xc7f) || (0xc80 ≤ c.toNat && c.toNat ≤ 0xcff) ||
  (0xd00 ≤ c.toNat && c.toNat ≤ 0xd7f)

/-! ## Data model (`src/services/dataSources.ts`) -/

structure LocationInfo where
  state : String
  district : String
  deriving Repr, DecidableEq

structure CropInfo where
  name : String
  season : String
  deriving Repr, DecidableEq

structure QueryContext where
  location : Option LocationInfo
  crop : Option CropInfo
  queryType : List String
  language : String
  timestamp : Nat
  deriving Repr, DecidableEq

/-- `ProcessedQuery` of `queryPreprocessor.ts`.  The interface declares
`extractedContext: QueryContext`, but the object literal returned by
`preprocessQuery` does not set that field, so at runtime it is
`undefined`; it is therefore modelled as an `Option`. -/
structure ProcessedQuery where
  originalText : List Char
  cleanedText : List Char
  detectedLanguage : String
  isValid : Bool
  error : Option String
  extractedContext : Option QueryContext
  deriving Repr, DecidableEq

/-- `preprocessQuery` of `src/utils/queryPreprocessor.ts`. -/
def preprocessQuery (query : List Char) : ProcessedQuery :=
  -- Step 1: basic text cleaning
  let cleaned1 := cleanText query
  -- Step 2: language detection heuristics
  let lang2 := detectLanguageStep2 cleaned1
  -- Step 3: code-mixed adjustment
  let lang3 := if lang2 == "eng" && hasCharIn 0x900 0x97f cleaned1 then "hin" else lang2
  -- Step 4: hinglish transliteration, guarded by detectedLanguage === 'eng'
  let translit := lang3 == "eng" && containsHinglishPattern cleaned1
  let cleaned2 := if translit then transliterateHinglishWords cleaned1 else cleaned1
  let lang4 := if translit then "hin-rom" else lang3
  -- Step 5: agriculture-specific spell corrections
  let cleaned3 := correctAgricultureTerms cleaned2
  -- Step 6: validation
  let valid := 3 ≤ cleaned3.length && cleaned3.any validLetter
  { originalText := query
    cleanedText := cleaned3
    detectedLanguage := lang4
    isValid := valid
    error := if valid then none
             else some "Please enter a valid farming question (minimum 3 characters with letters)"
    extractedContext := none }

/-- The Normalizer as a text transformation: the `cleanedText` an input
is mapped to. -/
def normalizeText (q : List Char) : List Char :=
  (preprocessQuery q).cleanedText

/-! ## Word/separator tokenisation

Auxiliary view used to reason about the whole-word `replace` loops: a
text splits uniquely into maximal `\w`-runs (words) and single
non-word characters (separators). -/

inductive Tok where
  | word (w : List Char)
  | sep (c : Char)
  deriving Repr, DecidableEq

def tokChars : Tok → List Char
  | .word w => w
  | .sep c => [c]

def renderToks (ts : List Tok) : List Char := ts.flatMap tokChars

def tokensAux : List Char → List Char → List Tok
  | acc, [] => if acc.isEmpty then [] else [.word acc.reverse]
  | acc, c :: cs =>
    if isWordChar c then tokensAux (c :: acc) cs
    else if acc.isEmpty then Tok.sep c :: tokensAux [] cs
    else Tok.word acc.reverse :: Tok.sep c :: tokensAux [] cs

def toks (l : List Char) : List Tok := tokensAux [] l

/-- Token-level effect of one `replaceWord` pass. -/
def substTok (k v : List Char) : Tok → Tok
  | .word w => .word (if lowerEq w k then v else w)
  | .sep c => .sep c

/-- Token-level effect of a whole replacement dictionary on one word. -/
def wordChain (dict : List (List Char × List Char)) (w : List Char) : List Char :=
  dict.foldl (fun w p => if lowerEq w p.1 then p.2 else w) w

def isWordTok : Tok → Bool
  | .word _ => true
  | .sep _ => false

/-- Well-formedness of a token list: words are non-empty `\w`-runs,
separators are non-word characters, and no two words are adjacent. -/
def WFtoks (ts : List Tok) : Prop :=
  (∀ t ∈ ts, match t with
    | Tok.word w => w ≠ [] ∧ ∀ c ∈ w, isWordChar c = true
    | Tok.sep c => isWordChar c = false) ∧
  List.Chain' (fun a b => ¬(isWordTok a = true ∧ isWordTok b = true)) ts

def toksWords (ts : List Tok) : List (List Char) :=
  ts.filterMap fun t => match t with
    | Tok.word w => some w
    | Tok.sep _ => none

/-! ## Shape predicates on cleaned text -/

/-- No two adjacent characters both satisfy `p`. -/
def noAdj (p : Char → Bool) : List Char → Bool
  | a :: b :: r => !(p a && p b) && noAdj p (b :: r)
  | _ => true

/-- No four consecutive equal characters. -/
def noRun4 : List Char → Bool
  | a :: b :: c :: d :: r => !(a == b && b == c && c == d) && noRun4 (b :: c :: d :: r)
  | _ => true

/-- Whitespace is tidy: no leading or trailing whitespace, no two
adjacent whitespace characters, and every whitespace character is a
plain space. -/
def tidyWs (l : List Char) : Bool :=
  (match l with
   | [] => true
   | c :: _ => !isJsWs c) &&
  (match l.getLast? with
   | some c => !isJsWs c
   | none => true) &&
  noAdj isJsWs l &&
  l.all (fun c => !isJsWs c || c == ' ')

/-! ## Retrieved data and payloads (`src/services/dataRetrieval.ts`)

The mock generators build their payloads from `Math.random`; the random
draws are external inputs, so the synthesized payloads are supplied to
the model as arguments/environment fields.  Fields that a given code
path may leave absent (`undefined`) are `Option`s. -/

inductive Freshness where
  | fresh
  | cached
  | stale
  deriving Repr, DecidableEq

structure ForecastDay where
  day : String
  temp : Int
  condition : String
  rain : Int
  deriving Repr, DecidableEq

/-- Weather payload: the mock generator fills the first six fields;
the `getCachedFallbackData` payload instead carries only `temperature`,
`humidity`, `condition` and `advisory`. -/
structure WeatherPayload where
  temperature : Int
  humidity : Int
  rainfall : Option Int := none
  forecast : Option (List ForecastDay) := none
  windSpeed : Option Int := none
  uvIndex : Option Int := none
  condition : Option String := none
  advisory : Option String := none
  deriving Repr, DecidableEq

structure PriceEntry where
  crop : String
  variety : String
  minPrice : Int
  maxPrice : Int
  modalPrice : Int
  unit : String
  market : String
  deriving Repr, DecidableEq

/-- Market payload.  `requestedCrop` and `missingDataNote` are read by
`ragSystem.ts` but never set by the mock generator in
`dataRetrieval.ts`, hence `Option`s. -/
structure MarketPayload where
  location : String
  date : String
  prices : List PriceEntry
  trend : String
  lastUpdated : Nat
  requestedCrop : Option String := none
  missingDataNote : Option String := none
  deriving Repr, DecidableEq

structure AdvisoryItem where
  title : String
  content : String
  priority : String
  validUntil : Nat
  source : String
  deriving Repr, DecidableEq

structure AdvisoryPayload where
  advisories : List AdvisoryItem
  location : String
  deriving Repr, DecidableEq

structure SoilPayload where
  pH : String
  organicCarbon : String
  nitrogen : String
  phosphorus : String
  potassium : String
  soilType : String
  recommendations : List String
  testDate : Nat
  district : String
  state : String
  deriving Repr, DecidableEq

structure SchemeItem where
  name : String
  description : String
  eligibility : String
  benefit : String
  applicationProcess : String
  status : String
  deadline : String
  deriving Repr, DecidableEq

structure SchemePayload where
  schemes : List SchemeItem
  state : String
  deriving Repr, DecidableEq

/-- The `data: any` field of a `RetrievedData`. -/
inductive Payload where
  | weather (w : WeatherPayload)
  | market (m : MarketPayload)
  | advisory (a : AdvisoryPayload)
  | soil (s : SoilPayload)
  | scheme (s : SchemePayload)
  deriving Repr, DecidableEq

/-- JavaScript read `data.requestedCrop`: defined on market payloads,
`undefined` (`none`) elsewhere; in the source it is only read under a
`type === 'market'` guard. -/
def Payload.requestedCrop? : Payload → Option String
  | .market m => m.requestedCrop
  | _ => none

def Payload.missingDataNote? : Payload → Option String
  | .market m => m.missingDataNote
  | _ => none

def Payload.asWeather : Payload → Option WeatherPayload
  | .weather w => some w
  | _ => none

def Payload.asMarket : Payload → Option MarketPayload
  | .market m => some m
  | _ => none

def Payload.asAdvisory : Payload → Option AdvisoryPayload
  | .advisory a => some a
  | _ => none

def Payload.asSoil : Payload → Option SoilPayload
  | .soil s => some s
  | _ => none

def Payload.asScheme : Payload → Option SchemePayload
  | .scheme s => some s
  | _ => none

structure Metadata where
  freshness : Freshness
  cacheTime : Option Nat := none
  reliability : String
  deriving Repr, DecidableEq

structure RetrievedData where
  source : String
  type : String
  data : Payload
  confidence : ℚ
  timestamp : Nat
  location : Option LocationInfo
  metadata : Metadata
  deriving Repr, DecidableEq

/-! ## The retrieval cache of `DataRetrievalAgent`

The `Map` is modelled as an association list where `set` prepends (a
later `set` for the same key shadows the earlier entry, matching
`Map.set`/`Map.get`); instants are milliseconds since the epoch. -/

structure CacheEntry where
  data : RetrievedData
  expiry : Nat
  deriving Repr, DecidableEq

def Cache := List (String × CacheEntry)

/-- `cacheDuration` of `DataRetrievalAgent` in milliseconds. -/
def cacheDuration : String → Nat
  | "weather" => 3600000
  | "market" => 86400000
  | "advisory" => 86400000
  | "soil" => 604800000
  | "scheme" => 604800000
  | _ => 0

/-- `getFromCache`: a hit requires `expiry > now` and rewrites the
metadata to `freshness: 'cached'`, `cacheTime: data.timestamp`. -/
def getFromCache (cache : Cache) (now : Nat) (key : String) : Option RetrievedData :=
  match cache.lookup key with
  | some e =>
    if now < e.expiry then
      some { e.data with
             metadata := { e.data.metadata with
                           freshness := .cached, cacheTime := some e.data.timestamp } }
    else none
  | none => none

/-- `setCache`: stores the datum with `expiry = now + cacheDuration[type]`. -/
def setCache (cache : Cache) (now : Nat) (key : String) (data : RetrievedData)
    (ty : String) : Cache :=
  (key, ⟨data, now + cacheDuration ty⟩) :: cache

def weatherKey (loc : LocationInfo) : String :=
  "weather_" ++ (loc.state ++ ("_" ++ loc.district))

def marketKey (loc : LocationInfo) (crop : Option CropInfo) : String :=
  "market_" ++ (loc.state ++ ("_" ++ (match crop with | some c => c.name | none => "general")))

def advisoryKey (loc : LocationInfo) (crop : Option CropInfo) : String :=
  "advisory_" ++ (loc.state ++ ("_" ++ (match crop with | some c => c.name | none => "general")))

def soilKey (loc : LocationInfo) : String :=
  "soil_" ++ (loc.state ++ ("_" ++ loc.district))

def schemeKey (loc : LocationInfo) : String :=
  "schemes_" ++ loc.state

/-- `retrieveWeatherData`: cache hit short-circuits; otherwise the mock
payload (`gen`, synthesized from `Math.random` in the source) is wrapped
and cached under the weather TTL. -/
def retrieveWeatherData (cache : Cache) (now : Nat) (loc : LocationInfo)
    (gen : WeatherPayload) : List RetrievedData × Cache :=
  let key := weatherKey loc
  match getFromCache cache now key with
  | some c => ([c], cache)
  | none =>
    let result : RetrievedData :=
      { source := "Indian Meteorological Department", type := "weather"
        data := .weather gen, confidence := 9/10, timestamp := now
        location := some loc
        metadata := { freshness := .fresh, reliability := "high" } }
    ([result], setCache cache now key result "weather")

def retrieveMarketData (cache : Cache) (now : Nat) (loc : LocationInfo)
    (crop : Option CropInfo) (gen : MarketPayload) : List RetrievedData × Cache :=
  let key := marketKey loc crop
  match getFromCache cache now key with
  | some c => ([c], cache)
  | none =>
    let result : RetrievedData :=
      { source := "AGMARKNET", type := "market"
        data := .market gen, confidence := 17/20, timestamp := now
        location := some loc
        metadata := { freshness := .fresh, reliability := "high" } }
    ([result], setCache cache now key result "market")

def retrieveAdvisoryData (cache : Cache) (now : Nat) (loc : LocationInfo)
    (crop : Option CropInfo) (gen : AdvisoryPayload) : List RetrievedData × Cache :=
  let key := advisoryKey loc crop
  match getFromCache cache now key with
  | some c => ([c], cache)
  | none =>
    let result : RetrievedData :=
      { source := "Agricultural Advisory Services", type := "advisory"
        data := .advisory gen, confidence := 4/5, timestamp := now
        location := some loc
        metadata := { freshness := .fresh, reliability := "high" } }
    ([result], setCache cache now key result "advisory")

/-- `retrieveSoilData`: note that the mock soil datum is created with
`freshness: 'cached'` and a `cacheTime` thirty days in the past. -/
def retrieveSoilData (cache : Cache) (now : Nat) (loc : LocationInfo)
    (gen : SoilPayload) : List RetrievedData × Cache :=
  let key := soilKey loc
  match getFromCache cache now key with
  | some c => ([c], cache)
  | none =>
    let result : RetrievedData :=
      { source := "Soil Health Card Program", type := "soil"
        data := .soil gen, confidence := 17/20, timestamp := now
        location := some loc
        metadata := { freshness := .cached, cacheTime := some (now - 2592000000)
                      reliability := "high" } }
    ([result], setCache cache now key result "soil")

def retrieveSchemeData (cache : Cache) (now : Nat) (loc : LocationInfo)
    (gen : SchemePayload) : List RetrievedData × Cache :=
  let key := schemeKey loc
  match getFromCache cache now key with
  | some c => ([c], cache)
  | none =>
    let result : RetrievedData :=
      { source := "Government Scheme Database", type := "scheme"
        data := .scheme gen, confidence := 9/10, timestamp := now
        location := some loc
        metadata := { freshness := .fresh, reliability := "high" } }
    ([result], setCache cache now key result "scheme")

/-- The mock-payload outputs of the five generators for one
orchestration pass (abstracting the `Math.random` draws). -/
structure AgentEnv where
  weatherGen : WeatherPayload
  marketGen : Option CropInfo → MarketPayload
  advisoryGen : Option CropInfo → AdvisoryPayload
  soilGen : SoilPayload
  schemeGen : SchemePayload

/-- `retrieveAllRelevantData`: nothing without a location; otherwise
weather and advisory always, market only for a crop or a market/price
query type, soil only for soil/fertilizer, schemes only for
scheme/subsidy. -/
def retrieveAllRelevantData (env : AgentEnv) (cache : Cache) (now : Nat)
    (context : QueryContext) : List RetrievedData × Cache :=
  match context.location with
  | none => ([], cache)
  | some loc =>
    let wr := retrieveWeatherData cache now loc env.weatherGen
    let mr :=
      if context.crop.isSome || context.queryType.contains "market"
         || context.queryType.contains "price" then
        retrieveMarketData wr.2 now loc context.crop (env.marketGen context.crop)
      else ([], wr.2)
    let ar := retrieveAdvisoryData mr.2 now loc context.crop (env.advisoryGen context.crop)
    let sr :=
      if context.queryType.contains "soil" || context.queryType.contains "fertilizer" then
        retrieveSoilData ar.2 now loc env.soilGen
      else ([], ar.2)
    let scr :=
      if context.queryType.contains "scheme" || context.queryType.contains "subsidy" then
        retrieveSchemeData sr.2 now loc env.schemeGen
      else ([], sr.2)
    (wr.1 ++ mr.1 ++ ar.1 ++ sr.1 ++ scr.1, scr.2)

/-! ## The RAG system (`src/services/ragSystem.ts`) -/

inductive FactualBasis where
  | high
  | medium
  | low
  deriving Repr, DecidableEq

def FactualBasis.toStr : FactualBasis → String
  | .high => "high"
  | .medium => "medium"
  | .low => "low"

def Freshness.toStr : Freshness → String
  | .fresh => "fresh"
  | .cached => "cached"
  | .stale => "stale"

structure SourceReference where
  source : String
  type : String
  data : Payload
  confidence : ℚ
  freshness : Freshness
  citation : String
  deriving Repr, DecidableEq

structure RAGResponse where
  answer : String
  sources : List SourceReference
  confidence : ℚ
  factualBasis : FactualBasis
  generatedContent : List String
  disclaimer : Option String
  deriving Repr, DecidableEq

/-- `(q * 100).toFixed(0)` for the confidence percentages. -/
def qPct (q : ℚ) : String := toString (round (q * 100) : ℤ)

def jsToUpper (c : Char) : Char :=
  if 97 ≤ c.toNat ∧ c.toNat ≤ 122 then Char.ofNat (c.toNat - 32) else c

def strUpper (s : String) : String := String.mk (s.toList.map jsToUpper)

/-- JavaScript `haystack.includes(needle)`. -/
def strIncludes (needle hay : String) : Bool :=
  hay.toList.tails.any (fun t => needle.toList.isPrefixOf t)

/-- `assessFactualBasis`. -/
def assessFactualBasis (data : List RetrievedData) : FactualBasis :=
  let freshData := data.filter (fun d => d.metadata.freshness == Freshness.fresh)
  if 2 ≤ freshData.length then .high
  else if 2 ≤ data.length then .medium
  else .low

/-- `calculateDynamicConfidence`. -/
def calculateDynamicConfidence (retrievedData : List RetrievedData)
    (context : QueryContext) : ℚ :=
  let confidence : ℚ := 1/2
  let freshData := (retrievedData.filter
    (fun d => d.metadata.freshness == Freshness.fresh)).length
  let totalData := retrievedData.length
  let confidence := if 0 < totalData then
      confidence + ((freshData : ℚ) / (totalData : ℚ)) * (3/10)
    else confidence
  let confidence := match context.crop with
    | some crop =>
      if (retrievedData.find? (fun d =>
            d.type == "market" && d.data.requestedCrop? == some crop.name)).isSome then
        confidence + 3/20
      else confidence
    | none => confidence
  let confidence := match context.location with
    | some cloc =>
      if (retrievedData.find? (fun d =>
            match d.location with
            | some dl => dl.state == cloc.state || dl.district == cloc.district
            | none => false)).isSome then
        confidence + 1/10
      else confidence
    | none => confidence
  let uniqueTypes := (retrievedData.map (fun d => d.type)).dedup.length
  let confidence := confidence + min ((uniqueTypes : ℚ) * (1/20)) (1/5)
  min confidence (19/20)

/-- `shouldGroundResponse`. -/
def shouldGroundResponse (context : QueryContext) (initialAnswer : String) : Bool :=
  if context.location.isSome || context.crop.isSome then true
  else if context.queryType.any
      (fun t => (["weather", "market", "price", "scheme"] : List String).contains t) then true
  else if strIncludes "current" initialAnswer || strIncludes "latest" initialAnswer
      || strIncludes "today" initialAnswer then true
  else false

/-- `filterRelevantData`: drops a market datum whose (truthy)
`requestedCrop` differs from the extracted crop; everything else kept. -/
def filterRelevantData (retrievedData : List RetrievedData)
    (context : QueryContext) : List RetrievedData :=
  retrievedData.filter fun data =>
    match context.crop with
    | some crop =>
      if data.type == "market" then
        match data.data.requestedCrop? with
        | some rc => if rc != "" && rc != crop.name then false else true
        | none => true
      else true
    | none => true

/-- `generateCitation`; the locale-dependent `toLocaleDateString` is an
external input (`fmt`). -/
def generateCitation (fmt : Nat → String) (data : RetrievedData) : String :=
  data.source ++ " (" ++ fmt data.timestamp ++ ")" ++
  (match data.location with
   | some l => " for " ++ l.district ++ ", " ++ l.state
   | none => "")

/-- `createSourceReferences`. -/
def createSourceReferences (fmt : Nat → String)
    (retrievedData : List RetrievedData) : List SourceReference :=
  retrievedData.map fun data =>
    { source := data.source, type := data.type, data := data.data
      confidence := data.confidence, freshness := data.metadata.freshness
      citation := generateCitation fmt data }

/-! ### Sentence splitting and generated-content heuristics -/

def isSentenceDelim (c : Char) : Bool :=
  c == '.' || c == '।' || c == '!' || c == '?'

/-- `answer.split(/[.।!?]+/)`. -/
def splitSentencesAux (skipping : Bool) (acc : List Char) :
    List Char → List (List Char)
  | [] => [acc.reverse]
  | c :: cs =>
    if isSentenceDelim c then
      if skipping then splitSentencesAux true [] cs
      else acc.reverse :: splitSentencesAux true [] cs
    else splitSentencesAux false (c :: acc) cs

def splitSentences (l : List Char) : List (List Char) :=
  splitSentencesAux false [] l

/-- Matcher for a regex of the form `/w1\s+w2\s+…/i` at the start of a
list. -/
def matchSeqAt : List (List Char) → List Char → Bool
  | [], _ => true
  | [w], l => w.isPrefixOf l
  | w :: ws, l =>
    if w.isPrefixOf l then
      let rest := l.drop w.length
      match rest.head? with
      | some c =>
        if isJsWs c then matchSeqAt ws (rest.dropWhile (fun c => isJsWs c))
        else false
      | none => false
    else false

/-- `.test` of a `/w1\s+w2\s+…/i` pattern. -/
def matchSeq (p : List String) (l : List Char) : Bool :=
  (l.map jsToLower).tails.any (matchSeqAt (p.map (fun w => w.toList)))

/-- The `generatedPatterns` of `identifyGeneratedContent`. -/
def generatedPatterns : List (List String) :=
  [["generally", "speaking"], ["in", "most", "cases"], ["typically"],
   ["usually"], ["it", "is", "recommended"], ["आमतौर", "पर"],
   ["सामान्यतः"], ["अक्सर"]]

/-- JavaScript `sentence.trim()`. -/
def jsTrimStr (s : String) : String := String.mk (jsTrim s.toList)

/-- `identifyGeneratedContent`. -/
def identifyGeneratedContent (answer : String) : List String :=
  (splitSentences answer.toList).filterMap fun s =>
    if generatedPatterns.any (fun p => matchSeq p s) then
      some (jsTrimStr (String.mk s))
    else none

/-! ### Prompt builders -/

/-- `constructInitialPrompt` (the trailing `�` characters are
corrupted bytes present in the source file). -/
def constructInitialPrompt (query language : String) (context : QueryContext) : String :=
  let isHindi := language == "hi"
  let location := match context.location with
    | some l => l.district ++ ", " ++ l.state
    | none => "India"
  let crop := match context.crop with
    | some c => c.name
    | none => "general farming"
  let instructions := if isHindi then
      "आप एक कृषि विशेषज्ञ हैं। केवल सामान्य कृषि ज्ञान के आधार पर सलाह दें���"
    else
      "You are an agricultural expert. Provide advice based on general agricultural knowledge only."
  instructions ++ "\n\nFARMER\x27S QUESTION: " ++ query ++ "\nLOCATION: " ++ location ++
  "\nTOPIC: " ++ crop ++
  "\n\nINSTRUCTIONS:\n- Provide general agricultural guidance\n- Use simple, farmer-friendly language\n- Keep response under 200 words\n- Be practical and actionable\n- " ++
  (if isHindi then "हिंदी में जवाब दें" else "Respond in English") ++ "\n\nRESPONSE:"

/-- `constructGroundedPrompt`. -/
def constructGroundedPrompt (query initialAnswer factualContext language : String) : String :=
  let isHindi := language == "hi"
  let instructions := if isHindi then
      "नीचे दिए गए वर्तमान डे���ा के साथ अपनी सलाह को अपडेट करें।"
    else
      "Update your advice with the current data provided below."
  instructions ++ "\n\nORIGINAL QUESTION: " ++ query ++ "\nYOUR INITIAL ANSWER: " ++
  initialAnswer ++ "\n\nCURRENT VERIFIED DATA:\n" ++ factualContext ++
  "\n\nINSTRUCTIONS:\n- Combine your general knowledge with the specific data provided\n- Update prices, weather, and local information with exact data\n- Keep the same helpful tone but be more specific\n- Use emojis and farmer-friendly language\n- Maximum 300 words\n\nUPDATED RESPONSE:"

/-! ### `buildFactualContext`

The `switch` on `data.type` dereferences type-specific payload fields;
when a datum is tagged `market`/`advisory`/`soil`/`scheme` but carries a
payload missing the corresponding array field, the `forEach` call throws
(modelled as `Except.error`); the weather case only reads scalar fields
(printing `undefined` for missing ones) and cannot throw. -/

inductive PErr where
  | typeError
  deriving Repr, DecidableEq

def optNumStr (o : Option Int) : String :=
  match o with
  | some n => toString n
  | none => "undefined"

def optStr (o : Option String) : String :=
  match o with
  | some s => s
  | none => "undefined"

def factualWeatherLines (w : Option WeatherPayload) : String :=
  "Temperature: " ++ optNumStr (w.map (fun x => x.temperature)) ++ "°C\n" ++
  "Humidity: " ++ optNumStr (w.map (fun x => x.humidity)) ++ "%\n" ++
  "Rainfall: " ++ optNumStr (w.bind (fun x => x.rainfall)) ++ "mm\n" ++
  "Wind Speed: " ++ optNumStr (w.bind (fun x => x.windSpeed)) ++ " km/h\n" ++
  (match w.bind (fun x => x.forecast) with
   | some fc =>
     "3-day forecast:\n" ++
     String.join (fc.map (fun day =>
       "  " ++ day.day ++ ": " ++ toString day.temp ++ "°C, " ++ day.condition ++
       ", Rain: " ++ toString day.rain ++ "%\n"))
   | none => "")

def factualDatumLines (data : RetrievedData) : Except PErr String :=
  let head :=
    "## " ++ strUpper data.type ++ " DATA - " ++ data.source ++ "\n" ++
    "Confidence: " ++ qPct data.confidence ++ "%\n" ++
    "Freshness: " ++ data.metadata.freshness.toStr ++ "\n" ++
    (match data.location with
     | some l => "Location: " ++ l.district ++ ", " ++ l.state ++ "\n"
     | none => "")
  let body : Except PErr String :=
    if data.type == "weather" then
      .ok (factualWeatherLines data.data.asWeather)
    else if data.type == "market" then
      match data.data.asMarket with
      | some m => .ok (
          "Market: " ++ m.location ++ "\nDate: " ++ m.date ++ "\n" ++
          String.join (m.prices.map (fun p =>
            p.crop ++ ": ₹" ++ toString p.minPrice ++ "-" ++ toString p.maxPrice ++
            " (Modal: ₹" ++ toString p.modalPrice ++ ") " ++ p.unit ++ "\n")) ++
          "Price Trend: " ++ m.trend ++ "\n")
      | none => .error .typeError
    else if data.type == "advisory" then
      match data.data.asAdvisory with
      | some a => .ok (
          "Location: " ++ a.location ++ "\n" ++
          String.join (a.advisories.enum.map (fun p =>
            "Advisory " ++ toString (p.1 + 1) ++ ": " ++ p.2.title ++ "\n" ++
            "Content: " ++ p.2.content ++ "\nPriority: " ++ p.2.priority ++
            "\nSource: " ++ p.2.source ++ "\n")))
      | none => .error .typeError
    else if data.type == "soil" then
      match data.data.asSoil with
      | some s => .ok (
          "Soil Type: " ++ s.soilType ++ "\npH: " ++ s.pH ++ "\nOrganic Carbon: " ++
          s.organicCarbon ++ "%\nNitrogen: " ++ s.nitrogen ++ "\nPhosphorus: " ++
          s.phosphorus ++ "\nPotassium: " ++ s.potassium ++ "\nRecommendations:\n" ++
          String.join (s.recommendations.map (fun rec => "  - " ++ rec ++ "\n")))
      | none => .error .typeError
    else if data.type == "scheme" then
      match data.data.asScheme with
      | some sc => .ok (
          "State: " ++ sc.state ++ "\n" ++
          String.join (sc.schemes.map (fun scheme =>
            "Scheme: " ++ scheme.name ++ "\nDescription: " ++ scheme.description ++
            "\nEligibility: " ++ scheme.eligibility ++ "\nBenefit: " ++ scheme.benefit ++
            "\nApplication: " ++ scheme.applicationProcess ++ "\n")))
      | none => .error .typeError
    else .ok ""
  match body with
  | .ok b => .ok (head ++ b ++ "\n")
  | .error e => .error e

def buildFactualContext (retrievedData : List RetrievedData)
    (_context : QueryContext) : Except PErr String :=
  retrievedData.foldl
    (fun acc data =>
      match acc with
      | .error e => .error e
      | .ok s =>
        match factualDatumLines data with
        | .ok t => .ok (s ++ t)
        | .error e => .error e)
    (.ok "CURRENT VERIFIED DATA:\n\n")

/-! ### Response formatting -/

/-- Weather section of `formatFarmerFriendlyResponse` (emitted only when
a weather source exists; scalar reads on an ill-shaped payload print
`undefined`). -/
def fmtWeatherSection (isHindi : Bool) (ws : SourceReference) : String :=
  let w := ws.data.asWeather
  (if isHindi then "🌦 **मौसम जानकारी:**\n" else "🌦 **Weather Information:**\n") ++
  "• " ++ (if isHindi then "तापमान" else "Temperature") ++ ": " ++
    optNumStr (w.map (fun x => x.temperature)) ++ "°C\n" ++
  "• " ++ (if isHindi then "नमी" else "Humidity") ++ ": " ++
    optNumStr (w.map (fun x => x.humidity)) ++ "%\n" ++
  (match w.bind (fun x => x.forecast) with
   | some fc =>
     "• " ++ (if isHindi then "पूर्वानुमान" else "Forecast") ++ ": " ++
     (match fc.head? with
      | some d => if d.condition == "" then "Variable" else d.condition
      | none => "Variable") ++ "\n"
   | none => "") ++
  "*" ++ (if isHindi then "स्रोत" else "Source") ++ ": " ++ ws.source ++
  " (" ++ ws.freshness.toStr ++ ")*\n\n"

/-- Market section: always emitted; a missing market source yields an
explicit unavailability notice. -/
def fmtMarketSection (isHindi : Bool) (ms : Option SourceReference) : String :=
  (if isHindi then "💰 **बाजार भाव:**\n" else "💰 **Market Prices:**\n") ++
  (match ms with
   | some s =>
     let m := s.data.asMarket
     (match m with
      | some md =>
        String.join ((md.prices.take 3).map (fun p =>
          "• " ++ p.crop ++ ": ₹" ++ toString p.modalPrice ++ "/" ++
          (if isHindi then "क्विंटल" else "quintal") ++ "\n"))
      | none => "") ++
     (match m.bind (fun md => md.missingDataNote) with
      | some note => if note == "" then "" else "\n⚠️ " ++ note ++ "\n"
      | none => "") ++
     "*" ++ (if isHindi then "स्रोत" else "Source") ++ ": " ++ s.source ++
     " (" ++ s.freshness.toStr ++ ")*\n\n"
   | none =>
     if isHindi then
       "⚠️ बाजार डेटा अभी उपलब्ध नहीं है। कृपया बाद में पुनः प्रयास करें या स्थानीय मंडी स्रोतों से संपर्क करें।\n\n"
     else
       "⚠️ Market data is currently unavailable. Please check back later or consult local mandi sources.\n\n")

/-- Soil section (the `�` bullet bytes are corrupted characters present
in the source file). -/
def fmtSoilSection (isHindi : Bool) (ss : SourceReference) : String :=
  let s := ss.data.asSoil
  (if isHindi then "🌱 **मिट्टी और उर्वरक:**\n" else "🌱 **Soil & Fertilizer:**\n") ++
  "• " ++ (if isHindi then "मिट्टी का प्रकार" else "Soil Type") ++ ": " ++
    optStr (s.map (fun x => x.soilType)) ++ "\n" ++
  "• pH: " ++ optStr (s.map (fun x => x.pH)) ++ "\n" ++
  (match s with
   | some sp =>
     String.join ((sp.recommendations.take 2).map (fun rec => "��� " ++ rec ++ "\n"))
   | none => "") ++
  "*" ++ (if isHindi then "स्रोत" else "Source") ++ ": " ++ ss.source ++
  " (" ++ ss.freshness.toStr ++ ")*\n\n"

def fmtAdvisorySection (isHindi : Bool) (as' : SourceReference) : String :=
  match as'.data.asAdvisory with
  | some a =>
    (if isHindi then "📋 **कृषि सलाह:**\n" else "📋 **Agricultural Advisory:**\n") ++
    String.join ((a.advisories.take 2).map (fun adv =>
      "• **" ++ adv.title ++ "**: " ++ adv.content ++ "\n")) ++
    "*" ++ (if isHindi then "स्रोत" else "Source") ++ ": " ++ as'.source ++
    " (" ++ as'.freshness.toStr ++ ")*\n\n"
  | none => ""

def fmtSchemeSection (isHindi : Bool) (ss : SourceReference) : String :=
  match ss.data.asScheme with
  | some sc =>
    (if isHindi then "📜 **सरकारी योजनाएं:**\n" else "📜 **Government Schemes:**\n") ++
    String.join ((sc.schemes.take 2).map (fun scheme =>
      "• **" ++ scheme.name ++ "**: " ++ scheme.benefit ++ "\n")) ++
    "*" ++ (if isHindi then "स्रोत" else "Source") ++ ": " ++ ss.source ++
    " (" ++ ss.freshness.toStr ++ ")*\n\n"
  | none => ""

/-- Truthiness of `s.data?.missingDataNote`. -/
def hasMissingNote (s : SourceReference) : Bool :=
  match s.data.missingDataNote? with
  | some note => note != ""
  | none => false

/-- `generateTransparencySection`. -/
def generateTransparencySection (sources : List SourceReference)
    (response : RAGResponse) (isHindi : Bool) : String :=
  let dataSourceCount := sources.length
  let freshDataCount := (sources.filter (fun s => s.freshness == Freshness.fresh)).length
  (if isHindi then "🔍 **यह उत्तर कैसे तैयार किया गया:**\n"
   else "🔍 **How This Answer Was Generated:**\n") ++
  (if isHindi then
    "• आपके प्रश्न का विश्लेषण करके विषय और स्थान की पहचान की गई\n" ++
    "• " ++ toString dataSourceCount ++ " विश्वसनीय कृषि स्रोतों से डेटा एकत्र किया गया\n" ++
    "• " ++ toString freshDataCount ++ " स्रोतों से ताज़ा जानकारी प्राप्त हुई\n" ++
    "• AI ने इस डेटा को कृषि विशेषज्ञता के साथ जोड़कर उत्तर तैयार किया\n" ++
    "• विश���वसनीयता स्कोर: " ++ qPct response.confidence ++ "% (" ++
    (match response.factualBasis with
     | .high => "उच्च"
     | .medium => "मध्यम"
     | .low => "निम्न") ++ " तथ्यात्मक आधार)\n" ++
    (if sources.any hasMissingNote then
      "• कुछ डेटा अनुपलब्ध होने पर पारदर्शी सूचना दी गई\n" else "")
  else
    "• Analyzed your query to identify topic, crop, and location\n" ++
    "• Retrieved data from " ++ toString dataSourceCount ++ " trusted agricultural sources\n" ++
    "• " ++ toString freshDataCount ++ " sources provided fresh, current information\n" ++
    "• AI combined this data with agricultural expertise\n" ++
    "• Confidence score: " ++ qPct response.confidence ++ "% (" ++
    response.factualBasis.toStr ++ " factual basis)\n" ++
    (if sources.any hasMissingNote then
      "• Transparently noted where specific data was unavailable\n" else ""))

/-- `formatFarmerFriendlyResponse`: rewrites `answer` into the fixed
visual template; all other fields of `response` are kept (`...response`
spread). -/
def formatFarmerFriendlyResponse (response : RAGResponse)
    (sources : List SourceReference) (language : String)
    (originalQuery : String) : RAGResponse :=
  let isHindi := language == "hi"
  let weatherSrc := sources.find? (fun s => s.type == "weather")
  let marketSrc := sources.find? (fun s => s.type == "market")
  let soilSrc := sources.find? (fun s => s.type == "soil")
  let advisorySrc := sources.find? (fun s => s.type == "advisory")
  let schemeSrc := sources.find? (fun s => s.type == "scheme")
  let answer :=
    (if originalQuery == "" then "" else "**" ++ originalQuery ++ "**\n\n") ++
    (if isHindi then "🌾 कृषि सलाह\n\n" else "🌾 Agricultural Advisory\n\n") ++
    (match weatherSrc with
     | some ws => fmtWeatherSection isHindi ws
     | none => "") ++
    fmtMarketSection isHindi marketSrc ++
    (match soilSrc with
     | some ss => fmtSoilSection isHindi ss
     | none => "") ++
    (match advisorySrc with
     | some as' => fmtAdvisorySection isHindi as'
     | none => "") ++
    (match schemeSrc with
     | some ss => fmtSchemeSection isHindi ss
     | none => "") ++
    (if isHindi then
      "💡 **सुझाव:**\n• स्थानीय कृषि विशेषज्ञ से सलाह लें\n• मौसम के अनुसार फसल की देखभाल करें\n\n"
     else
      "💡 **Tips:**\n• Consult local agricultural experts\n• Monitor crop conditions regularly\n\n") ++
    generateTransparencySection sources response isHindi
  { response with answer := answer }

/-! ### Canned responses -/

/-- `generateSuggestedQuestionsResponse`. -/
def generateSuggestedQuestionsResponse (query language : String)
    (context : QueryContext) : String :=
  let isHindi := language == "hi"
  let location := match context.location with
    | some l => l.district ++ ", " ++ l.state
    | none => if isHindi then "आपका क्षेत्र" else "your region"
  "**" ++ query ++ "**\n\n" ++
  (if isHindi then
    "❓ **प्रश्न का पूरा उत्तर नहीं मिल सका**\n\nमुझे खुशी है कि आपने सवाल पूछा, लेकिन मेरे पास इस सवाल का जवाब देने के लिए पर्याप्त विश्वसनीय डेटा नहीं है।\n\n"
   else
    "❓ **Query Could Not Be Fully Answered**\n\nI\x27m sorry, I do not have sufficient live data to answer your request.\n\n") ++
  (if isHindi then "📝 **आप ये सवाल पूछ सकते हैं:**\n" else "**You can try asking:**\n") ++
  (if isHindi then
    "• 🌦 \"" ++ location ++ " में अगले 5 दिन का मौसम कैसा रहेगा?\"\n" ++
    "• 💰 \"" ++ location ++ " में गेहूं और चावल के मंडी भाव दिखाएं\"\n" ++
    "• 🐛 \"" ++ location ++ " में कपास के लिए कीट चेतावनी\"\n" ++
    "• 📜 \"" ++ location ++ " के किसानों के लिए सरकारी योजनाएं\"\n" ++
    "• 🌱 \"मिट्टी की जांच कैसे कराएं " ++ location ++ " में?\"\n" ++
    "• 💡 \"" ++ location ++ " में इस मौसम में कौन सी फसल लगाएं?\""
   else
    "• 🌦 \"Weather forecast for " ++ location ++ " for next 5 days\"\n" ++
    "• 💰 \"Wheat and rice mandi prices in " ++ location ++ "\"\n" ++
    "• 🐛 \"Pest alerts for cotton in " ++ location ++ "\"\n" ++
    "• 📜 \"Government schemes for farmers in " ++ location ++ "\"\n" ++
    "• 🌱 \"How to get soil testing done in " ++ location ++ "?\"\n" ++
    "• 💡 \"Which crops to plant this season in " ++ location ++ "?\"")

/-- `getFallbackAdvisory`: the catch-all advisory (confidence 0.4,
factual basis low, no sources). -/
def getFallbackAdvisory (query language reason : String) : RAGResponse :=
  let isHindi := language == "hi"
  let body :=
    if reason == "Invalid query format" || reason == "System temporarily unavailable" then
      (if isHindi then
        "❓ **खुशी है कि आपने पूछा**\n\nमुझे खुशी है कि आपने सवाल पूछा, लेकिन मेरे पास इस सवाल का जवाब देने के लिए पर्याप्त विश्वसनीय डेटा नहीं है।\n\n📝 **आप ये सवाल पूछ सकते हैं:**\n• \"पंजाब में अगले 5 दिन का मौसम कैसा रहेगा?\"\n• \"पंजाब में चावल/गेहूं/मक्का के भाव दिखाएं\"\n• \"पंजाब में कपास के लिए कीट चेतावनी\"\n• \"पंजाब के किसानों के लिए सरकारी योजनाएं\""
       else
        "❓ **Query Could Not Be Fully Answered**\n\nI\x27m sorry, I do not have sufficient live data to answer your request.\n\n**You can try asking:**\n• 🌦 \"Weather forecast for Punjab\"\n• 💰 \"Wheat and rice mandi prices in Punjab\"\n• 🐛 \"Pest alerts for cotton in Punjab\"\n• 📜 \"Government schemes for farmers in Punjab\"")
    else
      (if isHindi then
        "🌾 **कृषि सलाह**\n\n💡 **सामान्य सुझाव:**\n• मिट्टी की जांच कराएं\n• मौसम के अनुसार फसल का चयन करें\n• स्थानीय कृषि केंद्र से संपर्क करें\n• उचित सिंचाई और उर्वरक का उपयोग करें\n\n📝 **अधिक मदद के लिए पूछें:**\n• \"मेरे क्षेत्र का मौसम कैसा रहेगा?\"\n• \"बाजार के भाव क्या हैं?\"\n• \"मिट्टी की जांच कैसे कराएं?\""
       else
        "🌾 **Agricultural Advisory**\n\n💡 **General Guidance:**\n• Test your soil regularly\n• Choose crops suitable for current season\n• Contact local agricultural extension office\n• Use appropriate irrigation and fertilization\n\n📝 **For more specific help, ask:**\n• \"What is the weather forecast for my region?\"\n• \"Show me current market prices\"\n• \"How to get soil testing done?\"")
  { answer := "**" ++ query ++ "**\n\n" ++ body
    sources := []
    confidence := 2/5
    factualBasis := .low
    generatedContent := ["General agricultural guidance"]
    disclaimer := some ("Based on general agricultural knowledge - " ++ reason) }

def getBasicOfflineResponse (query language : String) : RAGResponse :=
  getFallbackAdvisory query language "Offline mode"

/-- `getCachedFallbackData`: the single stale weather entry used when
all retrieval attempts returned nothing. -/
def getCachedFallbackData (now : Nat) (context : QueryContext) : List RetrievedData :=
  match context.location with
  | some loc =>
    [{ source := "Last Known Data", type := "weather"
       data := .weather { temperature := 28, humidity := 65
                          condition := some "Partly Cloudy"
                          advisory := some "Check local conditions" }
       confidence := 3/10, timestamp := now, location := some loc
       metadata := { freshness := .stale, reliability := "low" } }]
  | none => []

/-! ### The external generation client and the pipeline environment -/

/-- Outcome of one `supabase.functions.invoke('generate-advice', …)`
call: the invocation may throw, return an error object, return a null
`data` (so that reading `data.advice` throws inside `callLLM`'s own
`try`), or return a `data` whose `advice` field may be absent. -/
inductive LLMOutcome where
  | thrown
  | errorResult
  | okNullData
  | okData (advice : Option String)

/-- Outcome of one `dataAgent.retrieveAllRelevantData` call as observed
by `retrieveDataWithRetries` (a throw is caught by the retry loop). -/
inductive RetrievalOutcome where
  | thrown
  | ok (data : List RetrievedData)

structure CachedEntry where
  response : RAGResponse
  dateStr : String

/-- External collaborators of one `generateAdvice` run: the offline
cache, connectivity, the generation endpoint (per prompt), the data
agent (per retry attempt), date formatting, and the clock. -/
structure RagEnv where
  online : Bool
  cachedResponse : Option CachedEntry
  offlineFallback : Option RAGResponse
  llm : String → LLMOutcome
  retrieval : Nat → RetrievalOutcome
  dateFmt : Nat → String
  now : Nat

def apologyText : String :=
  "I apologize, but I cannot provide advice at the moment. Please try again later."

/-- `callLLM`: all failure shapes collapse to the fixed apology string;
a missing or empty `advice` string yields the fixed
"Unable to generate response." text.  This function is total: its own
`try`/`catch` means it never propagates an error. -/
def callLLM (env : RagEnv) (prompt : String) : String :=
  match env.llm prompt with
  | .thrown => apologyText
  | .errorResult => apologyText
  | .okNullData => apologyText
  | .okData advice =>
    match advice with
    | some s => if s == "" then "Unable to generate response." else s
    | none => "Unable to generate response."

/-- `getSystemHealthDisclaimer` after `checkSystemHealth`: `apiStatus`
is `offlineCache.isOnline()`; `cacheStatus` is always true
(`totalResponses >= 0`). -/
def getSystemHealthDisclaimer (env : RagEnv) : Option String :=
  if env.online then none else some "⚠️ Limited connectivity - Using available data"

/-- Observable side effects of one `generateAdvice` run. -/
inductive Effect where
  | retrievalAttempt (n : Nat)
  | llmCall (prompt : String)
  | cacheWrite
  deriving Repr, DecidableEq

def attemptResult (env : RagEnv) (n : Nat) : List RetrievedData :=
  match env.retrieval n with
  | .thrown => []
  | .ok d => d

/-- `retrieveDataWithRetries` with `maxRetries = 3`, unrolled: attempts
stop at the first non-empty batch; a throw inside an attempt is caught
and counts as an empty batch; after three empty attempts the stale
fallback entry is used. -/
def retrieveDataWithRetries (env : RagEnv) (context : QueryContext) :
    List RetrievedData × List Effect :=
  let a0 := attemptResult env 0
  if a0 ≠ [] then (a0, [.retrievalAttempt 0])
  else
    let a1 := attemptResult env 1
    if a1 ≠ [] then (a1, [.retrievalAttempt 0, .retrievalAttempt 1])
    else
      let a2 := attemptResult env 2
      if a2 ≠ [] then
        (a2, [.retrievalAttempt 0, .retrievalAttempt 1, .retrievalAttempt 2])
      else
        (getCachedFallbackData env.now context,
         [.retrievalAttempt 0, .retrievalAttempt 1, .retrievalAttempt 2])

/-- The no-grounding branch of `generateAdvice` (ragSystem.ts lines
136–145): a fixed confidence of 0.75 and a fixed factual basis of
`medium`, with no sources. -/
def ungroundedResponse (initialAnswer : String) : RAGResponse :=
  { answer := initialAnswer
    sources := []
    confidence := 3/4
    factualBasis := .medium
    generatedContent := []
    disclaimer := some "General agricultural guidance" }

/-- The grounded branch of `generateAdvice` given relevant data. -/
def groundedResponse (env : RagEnv) (relevantData : List RetrievedData)
    (context : QueryContext) (groundedAnswer : String) : RAGResponse :=
  { answer := groundedAnswer
    sources := createSourceReferences env.dateFmt relevantData
    confidence := calculateDynamicConfidence relevantData context
    factualBasis := assessFactualBasis relevantData
    generatedContent := identifyGeneratedContent groundedAnswer
    disclaimer := getSystemHealthDisclaimer env }

/-- The `try` block of `generateAdvice`, with the list of external calls
it performs.  `Except.error` marks a thrown exception that reaches the
outer `catch`; the only throw site reachable in this model is the
dereference of the absent `processed.extractedContext`
(`context.location` inside `constructInitialPrompt`). -/
def ragTry (env : RagEnv) (query language : String) :
    Except PErr RAGResponse × List Effect :=
  match env.cachedResponse with
  | some cached =>
    (.ok (formatFarmerFriendlyResponse
      { cached.response with
        disclaimer := some ("📅 Cached response from " ++ cached.dateStr ++ ". " ++
          (cached.response.disclaimer.getD "")) }
      cached.response.sources language query), [])
  | none =>
    if !env.online then
      match env.offlineFallback with
      | some o => (.ok (formatFarmerFriendlyResponse o o.sources language query), [])
      | none => (.ok (getBasicOfflineResponse query language), [])
    else
      let processed := preprocessQuery query.toList
      if !processed.isValid then
        (.ok (getFallbackAdvisory query language "Invalid query format"), [])
      else
        match processed.extractedContext with
        | none =>
          -- constructInitialPrompt reads context.location of undefined: TypeError
          (.error .typeError, [])
        | some context =>
          let initialPrompt :=
            constructInitialPrompt (String.mk processed.cleanedText) language context
          let initialAnswer := callLLM env initialPrompt
          let needsGrounding := shouldGroundResponse context initialAnswer
          let core : Except PErr (RAGResponse × List Effect) :=
            if needsGrounding then
              let (retrievedData, rEffs) := retrieveDataWithRetries env context
              if retrievedData ≠ [] then
                let relevantData := filterRelevantData retrievedData context
                if relevantData ≠ [] then
                  match buildFactualContext relevantData context with
                  | .error e => .error e
                  | .ok factualContext =>
                    let groundedPrompt := constructGroundedPrompt
                      (String.mk processed.cleanedText) initialAnswer factualContext language
                    let groundedAnswer := callLLM env groundedPrompt
                    .ok (groundedResponse env relevantData context groundedAnswer,
                         rEffs ++ [Effect.llmCall groundedPrompt])
                else
                  .ok ({ answer := generateSuggestedQuestionsResponse query language context
                         sources := [], confidence := 3/5, factualBasis := .low
                         generatedContent := []
                         disclaimer := some "Insufficient data available - suggested questions provided" },
                       rEffs)
              else
                .ok ({ answer := generateSuggestedQuestionsResponse query language context
                       sources := [], confidence := 1/2, factualBasis := .low
                       generatedContent := []
                       disclaimer := some "No current data available - suggested questions provided" },
                     rEffs)
            else
              .ok (ungroundedResponse initialAnswer, [])
          match core with
          | .error e => (.error e, [Effect.llmCall initialPrompt])
          | .ok (response, coreEffs) =>
            let formatted :=
              formatFarmerFriendlyResponse response response.sources language query
            -- offlineCache.cacheResponse(query, language, formattedResponse, …)
            (.ok formatted,
             Effect.llmCall initialPrompt :: coreEffs ++ [Effect.cacheWrite])

/-- `generateAdvice`: the outer `catch` converts any exception escaping
the `try` block into the catch-all fallback advisory. -/
def generateAdvice (env : RagEnv) (query language : String) :
    RAGResponse × List Effect :=
  match ragTry env query language with
  | (.ok r, effs) => (r, effs)
  | (.error _, effs) =>
    (getFallbackAdvisory query language "System temporarily unavailable", effs)

/-! ### Helper notions used in claim statements -/

/-- Number of sources marked `fresh` in a retrieved batch. -/
def freshCount (data : List RetrievedData) : Nat :=
  (data.filter (fun d => d.metadata.freshness == Freshness.fresh)).length

/-- Number of fresh source references. -/
def freshSrcCount (sources : List SourceReference) : Nat :=
  (sources.filter (fun s => s.freshness == Freshness.fresh)).length

/-- Everything about a retrieved datum except its freshness mark (used
to state monotonicity of the confidence score in the number of fresh
sources, all else fixed). -/
def dataShape (d : RetrievedData) :
    String × String × Payload × ℚ × Nat × Option LocationInfo × Option Nat × String :=
  (d.source, d.type, d.data, d.confidence, d.timestamp, d.location,
   d.metadata.cacheTime, d.metadata.reliability)

/-- The factual-basis rule exactly as the specification states it, as a
predicate over a produced `AdvisoryResponse`: `high` iff at least two
fresh sources, `medium` iff fewer than two fresh but at least two
sources in total, `low` otherwise. -/
def claimedBasisRule (r : RAGResponse) : Prop :=
  (r.factualBasis = .high ↔ 2 ≤ freshSrcCount r.sources) ∧
  (r.factualBasis = .medium ↔ freshSrcCount r.sources < 2 ∧ 2 ≤ r.sources.length) ∧
  (r.factualBasis = .low ↔ freshSrcCount r.sources < 2 ∧ r.sources.length < 2)

/-- The fresh-fraction term of `calculateDynamicConfidence` (up to
+0.30 proportional to the fraction of fresh sources). -/
def freshBoost (data : List RetrievedData) : ℚ :=
  if 0 < data.length then ((freshCount data : ℚ) / (data.length : ℚ)) * (3/10) else 0

/-- The +0.15 matching-crop term. -/
def cropBoost (data : List RetrievedData) (context : QueryContext) : ℚ :=
  match context.crop with
  | some crop =>
    if (data.find? (fun d =>
          d.type == "market" && d.data.requestedCrop? == some crop.name)).isSome then 3/20
    else 0
  | none => 0

/-- The +0.10 matching-location term. -/
def locBoost (data : List RetrievedData) (context : QueryContext) : ℚ :=
  match context.location with
  | some cloc =>
    if (data.find? (fun d =>
          match d.location with
          | some dl => dl.state == cloc.state || dl.district == cloc.district
          | none => false)).isSome then 1/10
    else 0
  | none => 0

/-- The source-type-diversity term (5% per distinct type, at most 20%). -/
def divBoost (data : List RetrievedData) : ℚ :=
  min (((data.map (fun d => d.type)).dedup.length : ℚ) * (1/20)) (1/5)

/-! ### Concrete demonstration values used by witness theorems -/

def demoLoc : LocationInfo := ⟨"Punjab", "Ludhiana"⟩

def demoCtx : QueryContext :=
  { location := none, crop := none, queryType := [], language := "en", timestamp := 0 }

def demoWeather1 : WeatherPayload := { temperature := 30, humidity := 70 }

def demoWeather2 : WeatherPayload := { temperature := 22, humidity := 55 }

def demoDatumStale : RetrievedData :=
  { source := "Last Known Data", type := "weather"
    data := .weather demoWeather1, confidence := 3/10, timestamp := 0
    location := none
    metadata := { freshness := .stale, reliability := "low" } }

def demoDatumFresh : RetrievedData :=
  { demoDatumStale with
    metadata := { freshness := .fresh, reliability := "low" } }

def demoAgentEnv : AgentEnv :=
  { weatherGen := demoWeather1
    marketGen := fun _ =>
      { location := "Ludhiana, Punjab", date := "2025-01-01", prices := []
        trend := "stable", lastUpdated := 0 }
    advisoryGen := fun _ => { advisories := [], location := "Ludhiana, Punjab" }
    soilGen :=
      { pH := "6.8", organicCarbon := "0.5", nitrogen := "Low", phosphorus := "Medium"
        potassium := "High", soilType := "Alluvial", recommendations := []
        testDate := 0, district := "Ludhiana", state := "Punjab" }
    schemeGen := { schemes := [], state := "Punjab" } }

def demoRagEnv : RagEnv :=
  { online := true, cachedResponse := none, offlineFallback := none
    llm := fun _ => .okData (some "General guidance.")
    retrieval := fun _ => .ok []
    dateFmt := fun _ => "1/1/2025", now := 0 }

def demoFailLLMEnv : RagEnv :=
  { demoRagEnv with llm := fun _ => LLMOutcome.thrown }

/-! # Proofs -/

/-! ## The transliteration branch is unreachable

Step 2 of `preprocessQuery` already returns `'hin-rom'` whenever the
hinglish pattern matches, so the step-4 guard
`detectedLanguage === 'eng' && containsHinglishPattern(cleanedText)`
can never hold. -/

theorem detectStep2_ne_eng_of_hinglish (l : List Char)
    (h : containsHinglishPattern l = true) : detectLanguageStep2 l ≠ "eng" := by
  unfold detectLanguageStep2
  split_ifs <;> decide

theorem translitCond_false (l : List Char) :
    ((if detectLanguageStep2 l == "eng" && hasCharIn 0x900 0x97f l then "hin"
      else detectLanguageStep2 l) == "eng" && containsHinglishPattern l) = false := by
  by_cases h : containsHinglishPattern l = true
  · have h3 : (detectLanguageStep2 l == "eng") = false :=
      beq_eq_false_iff_ne.mpr (detectStep2_ne_eng_of_hinglish l h)
    simp [h3]
  · have h' : containsHinglishPattern l = false := by
      revert h; cases containsHinglishPattern l <;> simp
    simp [h']

theorem preprocess_cleanedText_eq (q : List Char) :
    (preprocessQuery q).cleanedText = correctAgricultureTerms (cleanText q) := by
  simp only [preprocessQuery]
  rw [translitCond_false]
  simp

/-- Validation characterization: `isValid` tests the corrected cleaned
text for minimum length 3 and for containing a letter of the allowed
character class. -/
theorem preprocess_isValid_eq (q : List Char) :
    (preprocessQuery q).isValid =
      ((3 ≤ (correctAgricultureTerms (cleanText q)).length : Bool) &&
        (correctAgricultureTerms (cleanText q)).any validLetter) := by
  simp only [preprocessQuery]
  rw [translitCond_false]
  simp only [Bool.false_eq_true, if_false]

/-- Error characterization: the error message is set exactly when the
query is invalid. -/
theorem preprocess_error_eq (q : List Char) :
    (preprocessQuery q).error =
      if (preprocessQuery q).isValid = true then none
      else some "Please enter a valid farming question (minimum 3 characters with letters)" := by
  rw [preprocess_isValid_eq]
  simp only [preprocessQuery]
  rw [translitCond_false]
  simp only [Bool.false_eq_true, if_false]

/-- C9: the claim says that whenever the hinglish pattern is detected,
the Normalizer substitutes known romanized tokens by their Devanagari
equivalents (e.g. `pani` → `पानी`).  In the code this substitution is
dead: step 2 sets `detectedLanguage` to `'hin-rom'` whenever the
pattern matches, so step 4's `'eng'` guard never fires and
`transliterateHinglishWords` is never called — the cleaned text is
always just the cleaning followed by the misspelling dictionary, which
instead maps `pani` to `water`.  Concretely, for the hinglish input
"pani do" the detected language is `'hin-rom'` but the cleaned text is
"water do", not "पानी do". -/
theorem hinglish_transliteration_never_applied :
    (∀ q : List Char,
      (preprocessQuery q).cleanedText = correctAgricultureTerms (cleanText q)) ∧
    (preprocessQuery "pani do".toList).detectedLanguage = "hin-rom" ∧
    (preprocessQuery "pani do".toList).cleanedText = "water do".toList :=
  ⟨preprocess_cleanedText_eq, by decide, by decide⟩

/-- C6: language detection per script.  Pure Devanagari, Bengali and
Odia inputs are detected as claimed, but the third tested range
(`U+0A00`–`U+0A7F`) is the Gurmukhi block, not Gujarati: a pure
Gujarati input (code points `U+0A80`–`U+0AFF`, e.g. "ખેતી કરો") matches
no range and no hinglish pattern and falls through to the English
default, while pure Gurmukhi text is labelled `'guj'`. -/
theorem script_detection_eval :
    (preprocessQuery "ખેતી કરો".toList).detectedLanguage = "eng" ∧
    (preprocessQuery "पानी चाहिए".toList).detectedLanguage = "hin" ∧
    (preprocessQuery "ধান চাষ".toList).detectedLanguage = "ben" ∧
    (preprocessQuery "ଧାନ ଚାଷ".toList).detectedLanguage = "ori" ∧
    (preprocessQuery "ਕਣਕ ਦੀ ਫਸਲ".toList).detectedLanguage = "guj" :=
  ⟨by decide, by decide, by decide, by decide, by decide⟩

/-! ## The idempotence analysis of the Normalizer (C10)

The cleaning chain is not idempotent (see
`normalizer_not_idempotent`): stripping disallowed characters runs
after whitespace collapsing, so it can surface new adjacent spaces, and
lowercasing runs after the repeated-character reduction, so it can
surface new runs of four or more equal characters.  The development
below shows these are the only obstructions: on any text that is a
fixpoint of trim-plus-whitespace-collapsing and of the
repeated-character reduction, every other stage (strip, punctuation
collapse, lowercasing, dictionary correction) is already a fixpoint of
the Normalizer's own output, so the Normalizer is idempotent there. -/

theorem correct_eq_dictFold (l : List Char) :
    correctAgricultureTerms l = dictFold agricultureTerms l := rfl

/-! ### Character-level lemmas -/

theorem char_eq_of_toNat {c d : Char} (h : c.toNat = d.toNat) : c = d := by
  rw [← Char.ofNat_toNat c, h, Char.ofNat_toNat]

theorem char_beq_toNat (c d : Char) : (c == d) = (c.toNat == d.toNat) := by
  by_cases h : c.toNat = d.toNat
  · rw [beq_iff_eq.mpr (char_eq_of_toNat h), beq_iff_eq.mpr h]
  · rw [beq_eq_false_iff_ne.mpr (fun (he : c = d) => h (by rw [he])),
      beq_eq_false_iff_ne.mpr h]

theorem isPunct3_toNat (c : Char) :
    isPunct3 c = (c.toNat == 46 || c.toNat == 33 || c.toNat == 63) := by
  unfold isPunct3
  rw [char_beq_toNat, char_beq_toNat, char_beq_toNat]
  rfl

theorem isWordChar_toNat (c : Char) :
    isWordChar c = ((65 ≤ c.toNat && c.toNat ≤ 90) || (97 ≤ c.toNat && c.toNat ≤ 122) ||
      (48 ≤ c.toNat && c.toNat ≤ 57) || c.toNat == 95) := by
  unfold isWordChar
  rw [char_beq_toNat]
  rfl

theorem toNat_ofNat_valid {n : Nat} (h : n < 0xd800) : (Char.ofNat n).toNat = n := by
  have hv : n.isValidChar := Or.inl h
  simp only [Char.ofNat, hv, dif_pos, Char.ofNatAux]
  rfl

theorem jsToLower_toNat (c : Char) :
    (jsToLower c).toNat =
      if 65 ≤ c.toNat ∧ c.toNat ≤ 90 then c.toNat + 32 else c.toNat := by
  unfold jsToLower
  by_cases h : 65 ≤ c.toNat ∧ c.toNat ≤ 90
  · rw [if_pos h, if_pos h, toNat_ofNat_valid (by omega)]
  · rw [if_neg h, if_neg h]

theorem jsToLower_eq_self {c : Char} (h : ¬(65 ≤ c.toNat ∧ c.toNat ≤ 90)) :
    jsToLower c = c := by
  unfold jsToLower
  exact if_neg h

theorem jsToLower_idem (c : Char) : jsToLower (jsToLower c) = jsToLower c := by
  by_cases h : 65 ≤ c.toNat ∧ c.toNat ≤ 90
  · apply jsToLower_eq_self
    rw [jsToLower_toNat, if_pos h]
    omega
  · simp only [jsToLower_eq_self h]

theorem isPunct3_jsToLower (c : Char) : isPunct3 (jsToLower c) = isPunct3 c := by
  rw [isPunct3_toNat, isPunct3_toNat, jsToLower_toNat]
  by_cases h : 65 ≤ c.toNat ∧ c.toNat ≤ 90
  · rw [if_pos h]
    have h1 : (c.toNat + 32 == 46) = false := by simp; omega
    have h2 : (c.toNat + 32 == 33) = false := by simp; omega
    have h3 : (c.toNat + 32 == 63) = false := by simp; omega
    have h4 : (c.toNat == 46) = false := by simp; omega
    have h5 : (c.toNat == 33) = false := by simp; omega
    have h6 : (c.toNat == 63) = false := by simp; omega
    rw [h1, h2, h3, h4, h5, h6]
  · rw [if_neg h]

theorem isWordChar_not_punct {c : Char} (h : isWordChar c = true) :
    isPunct3 c = false := by
  rw [isWordChar_toNat] at h
  rw [isPunct3_toNat]
  simp at h ⊢
  omega

theorem allowedChar_jsToLower {c : Char} (h : allowedChar c = true) :
    allowedChar (jsToLower c) = true := by
  by_cases hc : 65 ≤ c.toNat ∧ c.toNat ≤ 90
  · have hw : isWordChar (jsToLower c) = true := by
      rw [isWordChar_toNat, jsToLower_toNat, if_pos hc]
      simp
      omega
    unfold allowedChar
    rw [hw]
    rfl
  · rw [jsToLower_eq_self hc]
    exact h

/-! ### Which characters the cleaning stages can emit -/

theorem mem_collapsePunct {c : Char} : ∀ {l : List Char}, c ∈ collapsePunct l → c ∈ l
  | [], h => h
  | [d], h => h
  | d :: e :: l, h => by
    unfold collapsePunct at h
    split at h
    · exact List.mem_cons_of_mem d (mem_collapsePunct h)
    · rcases List.mem_cons.mp h with h | h
      · exact h ▸ List.mem_cons_self d _
      · exact List.mem_cons_of_mem d (mem_collapsePunct h)

theorem mem_emitRun {c d : Char} {n : Nat} (h : c ∈ emitRun d n) : c = d := by
  unfold emitRun at h
  split at h
  · rcases List.mem_cons.mp h with h | h
    · exact h
    · rw [List.mem_singleton] at h
      exact h
  · exact List.eq_of_mem_replicate h

theorem mem_collapseRepsAux {c : Char} :
    ∀ {l : List Char} {d : Char} {n : Nat},
      c ∈ collapseRepsAux d n l → c = d ∨ c ∈ l
  | [], d, n, h => Or.inl (mem_emitRun h)
  | e :: l, d, n, h => by
    unfold collapseRepsAux at h
    split at h
    · rcases mem_collapseRepsAux h with h | h
      · exact Or.inl h
      · exact Or.inr (List.mem_cons_of_mem e h)
    · rcases List.mem_append.mp h with h | h
      · exact Or.inl (mem_emitRun h)
      · rcases mem_collapseRepsAux h with h | h
        · exact Or.inr (h ▸ List.mem_cons_self e _)
        · exact Or.inr (List.mem_cons_of_mem e h)

theorem mem_collapseReps {c : Char} {l : List Char} (h : c ∈ collapseReps l) : c ∈ l := by
  cases l with
  | nil => exact h
  | cons d ds =>
    rcases mem_collapseRepsAux h with h | h
    · exact h ▸ List.mem_cons_self d _
    · exact List.mem_cons_of_mem d h

theorem mem_emitWord {c : Char} {k v acc : List Char} (h : c ∈ emitWord k v acc) :
    c ∈ acc ∨ c ∈ v := by
  unfold emitWord at h
  split at h
  · exact Or.inr h
  · exact Or.inl (List.mem_reverse.mp h)

theorem mem_replaceWordAux {c : Char} {k v : List Char} :
    ∀ {l acc : List Char}, c ∈ replaceWordAux k v acc l → c ∈ acc ∨ c ∈ l ∨ c ∈ v
  | [], acc, h => by
    rcases mem_emitWord h with h | h
    · exact Or.inl h
    · exact Or.inr (Or.inr h)
  | d :: l, acc, h => by
    unfold replaceWordAux at h
    split at h
    · rcases mem_replaceWordAux h with h | h
      · rcases List.mem_cons.mp h with h | h
        · exact Or.inr (Or.inl (h ▸ List.mem_cons_self d _))
        · exact Or.inl h
      · rcases h with h | h
        · exact Or.inr (Or.inl (List.mem_cons_of_mem d h))
        · exact Or.inr (Or.inr h)
    · rcases List.mem_append.mp h with h | h
      · rcases mem_emitWord h with h | h
        · exact Or.inl h
        · exact Or.inr (Or.inr h)
      · rcases List.mem_cons.mp h with h | h
        · exact Or.inr (Or.inl (h ▸ List.mem_cons_self d _))
        · rcases mem_replaceWordAux h with h | h
          · exact absurd h (List.not_mem_nil c)
          · rcases h with h | h
            · exact Or.inr (Or.inl (List.mem_cons_of_mem d h))
            · exact Or.inr (Or.inr h)

theorem mem_replaceWord {c : Char} {k v l : List Char} (h : c ∈ replaceWord k v l) :
    c ∈ l ∨ c ∈ v := by
  rcases mem_replaceWordAux h with h | h
  · exact absurd h (List.not_mem_nil c)
  · exact h

theorem mem_dictFold {c : Char} :
    ∀ {d : List (String × String)} {l : List Char},
      c ∈ dictFold d l → c ∈ l ∨ ∃ p ∈ d, c ∈ p.2.toList
  | [], l, h => Or.inl h
  | p :: d, l, h => by
    rcases mem_dictFold (d := d) h with h | h
    · rcases mem_replaceWord h with h | h
      · exact Or.inl h
      · exact Or.inr ⟨p, List.mem_cons_self p d, h⟩
    · rcases h with ⟨q, hq, hc⟩
      exact Or.inr ⟨q, List.mem_cons_of_mem p hq, hc⟩

/-! ### Fixpoint lemmas for the strip and lowercase stages -/

theorem stripDisallowed_eq_self {l : List Char}
    (h : ∀ c ∈ l, allowedChar c = true) : stripDisallowed l = l :=
  List.filter_eq_self.mpr h

theorem toLowerStr_eq_self {l : List Char}
    (h : ∀ c ∈ l, jsToLower c = c) : toLowerStr l = l := by
  induction l with
  | nil => rfl
  | cons c cs ih =>
    unfold toLowerStr at ih ⊢
    simp only [List.map_cons, h c (List.mem_cons_self c cs),
      ih (fun x hx => h x (List.mem_cons_of_mem c hx))]

/-! ### The no-adjacent-punctuation invariant -/

theorem noAdjPunct_tail {c : Char} {l : List Char}
    (h : noAdjPunct (c :: l) = true) : noAdjPunct l = true := by
  unfold noAdjPunct at h
  cases hnl : noAdjPunct l
  · rw [hnl, Bool.and_false] at h
    exact absurd h (by decide)
  · rfl

theorem noAdjPunct_cons {c : Char} {l : List Char}
    (h : noAdjPunct (c :: l) = true) : (isPunct3 c && punctHead l) = false := by
  unfold noAdjPunct at h
  cases hb : (isPunct3 c && punctHead l)
  · rfl
  · rw [hb] at h
    simp at h

theorem noAdjPunct_cons_of {c : Char} {l : List Char}
    (h1 : (isPunct3 c && punctHead l) = false) (h2 : noAdjPunct l = true) :
    noAdjPunct (c :: l) = true := by
  unfold noAdjPunct
  rw [h1, h2]
  rfl

theorem punctHead_collapsePunct_of_not {d : Char} {cs : List Char}
    (h : isPunct3 d = false) : punctHead (collapsePunct (d :: cs)) = false := by
  cases cs with
  | nil => exact h
  | cons e cs' =>
    unfold collapsePunct
    rw [if_neg (by rw [h]; simp)]
    exact h

theorem noAdjPunct_collapsePunct : ∀ l : List Char, noAdjPunct (collapsePunct l) = true
  | [] => rfl
  | [c] => by
    unfold collapsePunct noAdjPunct punctHead noAdjPunct
    simp
  | c :: d :: cs => by
    unfold collapsePunct
    by_cases h : (isPunct3 c && isPunct3 d) = true
    · rw [if_pos h]
      exact noAdjPunct_collapsePunct (d :: cs)
    · rw [if_neg h]
      refine noAdjPunct_cons_of ?_ (noAdjPunct_collapsePunct (d :: cs))
      by_cases hd : isPunct3 d = true
      · have hc : isPunct3 c = false := by
          cases hc : isPunct3 c
          · rfl
          · exact absurd (by rw [hc, hd]; rfl) h
        rw [hc]
        rfl
      · rw [punctHead_collapsePunct_of_not (Bool.eq_false_iff.mpr hd), Bool.and_false]

theorem collapsePunct_eq_self : ∀ {l : List Char}, noAdjPunct l = true → collapsePunct l = l
  | [], _ => rfl
  | [c], _ => rfl
  | c :: d :: cs, h => by
    unfold collapsePunct
    have hc := noAdjPunct_cons h
    have hph : punctHead (d :: cs) = isPunct3 d := rfl
    rw [hph] at hc
    rw [if_neg (by rw [hc]; simp), collapsePunct_eq_self (noAdjPunct_tail h)]

theorem punctHead_emitRun_append {c : Char} {n : Nat} {m : List Char} (h : 1 ≤ n) :
    punctHead (emitRun c n ++ m) = isPunct3 c := by
  unfold emitRun
  split
  · rfl
  · cases n with
    | zero => omega
    | succ k => rfl

theorem noAdjPunct_replicate_append {c : Char} {m : List Char} :
    ∀ {n : Nat}, (isPunct3 c = true → n ≤ 1) → (isPunct3 c && punctHead m) = false →
      noAdjPunct m = true → noAdjPunct (List.replicate n c ++ m) = true
  | 0, _, _, hm => hm
  | 1, _, hb, hm => by
    have h1 : List.replicate 1 c ++ m = c :: m := rfl
    rw [h1]
    exact noAdjPunct_cons_of hb hm
  | n + 2, h1, hb, hm => by
    have hc : isPunct3 c = false := by
      cases hc : isPunct3 c
      · rfl
      · exact absurd (h1 hc) (by omega)
    rw [List.replicate_succ, List.cons_append]
    refine noAdjPunct_cons_of (by rw [hc]; rfl) ?_
    exact noAdjPunct_replicate_append (fun hp => absurd hp (by rw [hc]; simp)) (by rw [hc]; rfl) hm

theorem noAdjPunct_emitRun_append {c : Char} {n : Nat} {m : List Char}
    (h1 : isPunct3 c = true → n ≤ 1) (hb : (isPunct3 c && punctHead m) = false)
    (hm : noAdjPunct m = true) : noAdjPunct (emitRun c n ++ m) = true := by
  unfold emitRun
  split
  · rename_i hn
    have hc : isPunct3 c = false := by
      cases hc : isPunct3 c
      · rfl
      · have := h1 hc
        omega
    refine noAdjPunct_cons_of (by rw [hc]; rfl) ?_
    exact noAdjPunct_cons_of (by rw [hc]; rfl) hm
  · exact noAdjPunct_replicate_append h1 hb hm

theorem punctHead_collapseRepsAux {c : Char} :
    ∀ {l : List Char} {n : Nat}, 1 ≤ n → punctHead (collapseRepsAux c n l) = isPunct3 c
  | [], n, hn => by
    unfold collapseRepsAux
    rw [← List.append_nil (emitRun c n)]
    exact punctHead_emitRun_append hn
  | d :: ds, n, hn => by
    unfold collapseRepsAux
    split
    · exact punctHead_collapseRepsAux (by omega)
    · exact punctHead_emitRun_append hn

theorem noAdjPunct_collapseRepsAux {c : Char} :
    ∀ {l : List Char} {n : Nat}, 1 ≤ n → (isPunct3 c = true → n = 1) →
      noAdjPunct (c :: l) = true → noAdjPunct (collapseRepsAux c n l) = true
  | [], n, hn, hp, h => by
    unfold collapseRepsAux
    rw [← List.append_nil (emitRun c n)]
    refine noAdjPunct_emitRun_append (fun hc => le_of_eq (hp hc)) ?_ rfl
    show (isPunct3 c && false) = false
    exact Bool.and_false _
  | d :: ds, n, hn, hp, h => by
    unfold collapseRepsAux
    split
    · rename_i hd
      subst hd
      have hc : isPunct3 d = false := by
        cases hc : isPunct3 d
        · rfl
        · have := noAdjPunct_cons h
          rw [hc] at this
          have hph : punctHead (d :: ds) = isPunct3 d := rfl
          rw [hph, hc] at this
          exact absurd this (by decide)
      exact noAdjPunct_collapseRepsAux (by omega) (fun hq => absurd hq (by rw [hc]; simp))
        (noAdjPunct_tail h)
    · rename_i hd
      refine noAdjPunct_emitRun_append (fun hc => le_of_eq (hp hc)) ?_
        (noAdjPunct_collapseRepsAux le_rfl (fun _ => rfl) (noAdjPunct_tail h))
      rw [punctHead_collapseRepsAux le_rfl]
      have := noAdjPunct_cons h
      have hph : punctHead (d :: ds) = isPunct3 d := rfl
      rw [hph] at this
      exact this

theorem noAdjPunct_collapseReps {l : List Char} (h : noAdjPunct l = true) :
    noAdjPunct (collapseReps l) = true := by
  cases l with
  | nil => rfl
  | cons c cs => exact noAdjPunct_collapseRepsAux le_rfl (fun _ => rfl) h

theorem punctHead_toLowerStr (l : List Char) : punctHead (toLowerStr l) = punctHead l := by
  cases l with
  | nil => rfl
  | cons c cs => exact isPunct3_jsToLower c

theorem noAdjPunct_toLowerStr : ∀ {l : List Char},
    noAdjPunct l = true → noAdjPunct (toLowerStr l) = true
  | [], _ => rfl
  | c :: cs, h => by
    have hstep : toLowerStr (c :: cs) = jsToLower c :: toLowerStr cs := rfl
    rw [hstep]
    refine noAdjPunct_cons_of ?_ (noAdjPunct_toLowerStr (noAdjPunct_tail h))
    rw [punctHead_toLowerStr, isPunct3_jsToLower]
    exact noAdjPunct_cons h

/-! ### Word replacement preserves the punctuation invariant -/

theorem noAdjPunct_cons_eq (c : Char) (l : List Char) :
    noAdjPunct (c :: l) = ((!(isPunct3 c && punctHead l)) && noAdjPunct l) := rfl

theorem punctHead_word {w : List Char} (h : w.all isWordChar = true) :
    punctHead w = false := by
  cases w with
  | nil => rfl
  | cons c cs =>
    have hc : isWordChar c = true := (List.all_eq_true.mp h) c (List.mem_cons_self c cs)
    exact isWordChar_not_punct hc

theorem noAdjPunct_word_append {w : List Char} :
    ∀ {m : List Char}, w.all isWordChar = true → noAdjPunct (w ++ m) = noAdjPunct m := by
  induction w with
  | nil => intro m _; rfl
  | cons c w' ih =>
    intro m h
    have hc : isWordChar c = true := (List.all_eq_true.mp h) c (List.mem_cons_self c w')
    have hw' : w'.all isWordChar = true :=
      List.all_eq_true.mpr (fun x hx => (List.all_eq_true.mp h) x (List.mem_cons_of_mem c hx))
    have hcons : (c :: w') ++ m = c :: (w' ++ m) := rfl
    rw [hcons, noAdjPunct_cons_eq, isWordChar_not_punct hc, Bool.false_and,
      Bool.not_false, Bool.true_and, ih hw']

theorem noAdjPunct_word {w : List Char} (h : w.all isWordChar = true) :
    noAdjPunct w = true := by
  have := noAdjPunct_word_append (m := []) h
  rw [List.append_nil] at this
  rw [this]
  rfl

theorem all_reverse_word {acc : List Char} (h : acc.all isWordChar = true) :
    acc.reverse.all isWordChar = true := by
  rw [List.all_eq_true] at h ⊢
  intro x hx
  exact h x (List.mem_reverse.mp hx)

theorem emitWord_all_word {k v acc : List Char} (hv : v.all isWordChar = true)
    (hacc : acc.all isWordChar = true) : (emitWord k v acc).all isWordChar = true := by
  unfold emitWord
  split
  · exact hv
  · exact all_reverse_word hacc

theorem punctHead_replaceWordAux_ne {k v : List Char} (hv : v.all isWordChar = true)
    (hvne : v ≠ []) :
    ∀ {l acc : List Char}, acc ≠ [] → acc.all isWordChar = true →
      punctHead (replaceWordAux k v acc l) = false
  | [], acc, hne, hacc => by
    unfold replaceWordAux
    exact punctHead_word (emitWord_all_word hv hacc)
  | c :: cs, acc, hne, hacc => by
    unfold replaceWordAux
    split
    · rename_i hc
      exact punctHead_replaceWordAux_ne hv hvne (by simp) (by
        rw [List.all_cons, hc, hacc]; rfl)
    · have hemit : emitWord k v acc ≠ [] := by
        unfold emitWord
        split
        · exact hvne
        · simpa using hne
      rcases he : emitWord k v acc with _ | ⟨e, es⟩
      · exact absurd he hemit
      · have hall : (emitWord k v acc).all isWordChar = true := emitWord_all_word hv hacc
        rw [he, List.all_cons] at hall
        have : isWordChar e = true := by
          cases hq : isWordChar e
          · rw [hq, Bool.false_and] at hall
            exact absurd hall (by decide)
          · rfl
        show isPunct3 e = false
        exact isWordChar_not_punct this

theorem lowerEq_nil_false {k : List Char} (hk : k ≠ []) : lowerEq [] k = false := by
  unfold lowerEq
  cases k with
  | nil => exact absurd rfl hk
  | cons c cs => rfl

theorem punctHead_replaceWord_imp {k v : List Char} (hk : k ≠ [])
    (hv : v.all isWordChar = true) (hvne : v ≠ []) {cs : List Char}
    (h : punctHead (replaceWordAux k v [] cs) = true) : punctHead cs = true := by
  cases cs with
  | nil =>
    unfold replaceWordAux emitWord at h
    rw [List.reverse_nil, lowerEq_nil_false hk] at h
    simp only [Bool.false_eq_true, if_false] at h
    exact absurd h (by decide)
  | cons c cs' =>
    unfold replaceWordAux at h
    split at h
    · rename_i hc
      rw [punctHead_replaceWordAux_ne hv hvne (by simp) (by
        rw [List.all_cons, hc]; rfl)] at h
      exact absurd h (by decide)
    · unfold emitWord at h
      rw [List.reverse_nil, lowerEq_nil_false hk] at h
      simp only [Bool.false_eq_true, if_false] at h
      exact h

theorem noAdjPunct_replaceWordAux {k v : List Char} (hk : k ≠ [])
    (hv : v.all isWordChar = true) (hvne : v ≠ []) :
    ∀ {l acc : List Char}, acc.all isWordChar = true → noAdjPunct l = true →
      noAdjPunct (replaceWordAux k v acc l) = true
  | [], acc, hacc, hl => by
    unfold replaceWordAux
    exact noAdjPunct_word (emitWord_all_word hv hacc)
  | c :: cs, acc, hacc, hl => by
    unfold replaceWordAux
    split
    · rename_i hc
      exact noAdjPunct_replaceWordAux hk hv hvne
        (by rw [List.all_cons, hc, hacc]; rfl) (noAdjPunct_tail hl)
    · rename_i hc
      rw [noAdjPunct_word_append (emitWord_all_word hv hacc), noAdjPunct_cons_eq]
      have hrec : noAdjPunct (replaceWordAux k v [] cs) = true :=
        noAdjPunct_replaceWordAux hk hv hvne rfl (noAdjPunct_tail hl)
      rw [hrec, Bool.and_true]
      cases hpc : isPunct3 c
      · rfl
      · have hph : punctHead (replaceWordAux k v [] cs) = false := by
          cases hq : punctHead (replaceWordAux k v [] cs)
          · rfl
          · have := punctHead_replaceWord_imp hk hv hvne hq
            have hb := noAdjPunct_cons hl
            rw [hpc, this] at hb
            exact absurd hb (by decide)
        rw [hph]
        rfl

theorem noAdjPunct_replaceWord {k v l : List Char} (hk : k ≠ [])
    (hv : v.all isWordChar = true) (hvne : v ≠ []) (hl : noAdjPunct l = true) :
    noAdjPunct (replaceWord k v l) = true :=
  noAdjPunct_replaceWordAux hk hv hvne rfl hl

theorem noAdjPunct_dictFold {d : List (String × String)}
    (hcond : ∀ p ∈ d, p.1.toList ≠ [] ∧ p.2.toList.all isWordChar = true ∧ p.2.toList ≠ []) :
    ∀ {l : List Char}, noAdjPunct l = true → noAdjPunct (dictFold d l) = true := by
  induction d with
  | nil => intro l h; exact h
  | cons p d' ih =>
    intro l h
    have hp := hcond p (List.mem_cons_self p d')
    exact ih (fun q hq => hcond q (List.mem_cons_of_mem p hq))
      (noAdjPunct_replaceWord hp.1 hp.2.1 hp.2.2 h)

/-! ### Scanning for a whole word equal to a key -/

theorem hasWordAux_nil_eq (k acc : List Char) :
    hasWordAux k acc [] = lowerEq acc.reverse k := rfl

theorem hasWordAux_cons_eq (k acc : List Char) (c : Char) (cs : List Char) :
    hasWordAux k acc (c :: cs) =
      if isWordChar c then hasWordAux k (c :: acc) cs
      else (lowerEq acc.reverse k || hasWordAux k [] cs) := rfl

theorem replaceWordAux_nil_eq (k v acc : List Char) :
    replaceWordAux k v acc [] = emitWord k v acc := rfl

theorem replaceWordAux_cons_eq (k v acc : List Char) (c : Char) (cs : List Char) :
    replaceWordAux k v acc (c :: cs) =
      if isWordChar c then replaceWordAux k v (c :: acc) cs
      else emitWord k v acc ++ c :: replaceWordAux k v [] cs := rfl

theorem hasWordAux_word_append {k : List Char} :
    ∀ {w rest acc : List Char}, w.all isWordChar = true →
      hasWordAux k acc (w ++ rest) = hasWordAux k (w.reverse ++ acc) rest
  | [], rest, acc, _ => rfl
  | c :: w', rest, acc, h => by
    have hc : isWordChar c = true := (List.all_eq_true.mp h) c (List.mem_cons_self c w')
    have hw' : w'.all isWordChar = true :=
      List.all_eq_true.mpr (fun x hx => (List.all_eq_true.mp h) x (List.mem_cons_of_mem c hx))
    have hcons : (c :: w') ++ rest = c :: (w' ++ rest) := rfl
    rw [hcons, hasWordAux_cons_eq, if_pos hc, hasWordAux_word_append hw',
      List.reverse_cons, List.append_assoc]
    rfl

theorem lowerEq_emitWord {k k2 v acc : List Char} (hvk2 : lowerEq v k2 = false)
    (hacck2 : lowerEq acc.reverse k2 = false) : lowerEq (emitWord k v acc) k2 = false := by
  unfold emitWord
  split
  · exact hvk2
  · exact hacck2

theorem lowerEq_emitWord_self {k v acc : List Char} (hvk : lowerEq v k = false) :
    lowerEq (emitWord k v acc) k = false := by
  unfold emitWord
  split
  · exact hvk
  · rename_i hm
    cases hq : lowerEq acc.reverse k
    · rfl
    · rw [hq] at hm
      exact absurd rfl hm

theorem hasWord_replaceWordAux_other {k k2 v : List Char} (hv : v.all isWordChar = true)
    (hvk2 : lowerEq v k2 = false) :
    ∀ {l acc : List Char}, acc.all isWordChar = true → hasWordAux k2 acc l = false →
      hasWordAux k2 [] (replaceWordAux k v acc l) = false
  | [], acc, hacc, hl => by
    rw [hasWordAux_nil_eq] at hl
    rw [replaceWordAux_nil_eq, ← List.append_nil (emitWord k v acc),
      hasWordAux_word_append (emitWord_all_word hv hacc), hasWordAux_nil_eq,
      List.append_nil, List.reverse_reverse]
    exact lowerEq_emitWord hvk2 hl
  | c :: cs, acc, hacc, hl => by
    rw [hasWordAux_cons_eq] at hl
    rw [replaceWordAux_cons_eq]
    split
    · rename_i hc
      rw [if_pos hc] at hl
      exact hasWord_replaceWordAux_other hv hvk2
        (by rw [List.all_cons, hc, hacc]; rfl) hl
    · rename_i hc
      rw [if_neg hc] at hl
      have hl1 : lowerEq acc.reverse k2 = false := by
        cases hq : lowerEq acc.reverse k2
        · rfl
        · rw [hq, Bool.true_or] at hl
          exact absurd hl (by decide)
      have hl2 : hasWordAux k2 [] cs = false := by
        cases hq : hasWordAux k2 [] cs
        · rfl
        · rw [hq, Bool.or_true] at hl
          exact absurd hl (by decide)
      rw [hasWordAux_word_append (emitWord_all_word hv hacc), List.append_nil,
        hasWordAux_cons_eq, if_neg hc, List.reverse_reverse,
        lowerEq_emitWord hvk2 hl1, Bool.false_or]
      exact hasWord_replaceWordAux_other hv hvk2 rfl hl2

theorem hasWord_replaceWordAux_self {k v : List Char} (hv : v.all isWordChar = true)
    (hvk : lowerEq v k = false) :
    ∀ {l acc : List Char}, acc.all isWordChar = true →
      hasWordAux k [] (replaceWordAux k v acc l) = false
  | [], acc, hacc => by
    rw [replaceWordAux_nil_eq, ← List.append_nil (emitWord k v acc),
      hasWordAux_word_append (emitWord_all_word hv hacc), hasWordAux_nil_eq,
      List.append_nil, List.reverse_reverse]
    exact lowerEq_emitWord_self hvk
  | c :: cs, acc, hacc => by
    rw [replaceWordAux_cons_eq]
    split
    · rename_i hc
      exact hasWord_replaceWordAux_self hv hvk (by rw [List.all_cons, hc, hacc]; rfl)
    · rename_i hc
      rw [hasWordAux_word_append (emitWord_all_word hv hacc), List.append_nil,
        hasWordAux_cons_eq, if_neg hc, List.reverse_reverse,
        lowerEq_emitWord_self hvk, Bool.false_or]
      exact hasWord_replaceWordAux_self hv hvk rfl

theorem dictFold_cons_eq (p : String × String) (d : List (String × String)) (l : List Char) :
    dictFold (p :: d) l = dictFold d (replaceWord p.1.toList p.2.toList l) := rfl

theorem hasWord_dictFold_preserve {k2 : List Char} :
    ∀ {d : List (String × String)},
      (∀ r ∈ d, r.2.toList.all isWordChar = true ∧ lowerEq r.2.toList k2 = false) →
      ∀ {m : List Char}, hasWord k2 m = false → hasWord k2 (dictFold d m) = false
  | [], _, m, hm => hm
  | r :: d', hcond, m, hm => by
    rw [dictFold_cons_eq]
    have hr := hcond r (List.mem_cons_self r d')
    exact hasWord_dictFold_preserve (fun s hs => hcond s (List.mem_cons_of_mem r hs))
      (hasWord_replaceWordAux_other hr.1 hr.2 rfl hm)

theorem hasWord_dictFold_self :
    ∀ {d : List (String × String)},
      (∀ r ∈ d, r.2.toList.all isWordChar = true) →
      (∀ r ∈ d, ∀ s ∈ d, lowerEq r.2.toList s.1.toList = false) →
      ∀ p ∈ d, ∀ m : List Char, hasWord p.1.toList (dictFold d m) = false
  | [], _, _, p, hp, m => absurd hp (List.not_mem_nil p)
  | r :: d', hv, hcross, p, hp, m => by
    rw [dictFold_cons_eq]
    rcases List.mem_cons.mp hp with hp | hp
    · subst hp
      refine hasWord_dictFold_preserve
        (fun s hs => ⟨hv s (List.mem_cons_of_mem p hs),
          hcross s (List.mem_cons_of_mem p hs) p (List.mem_cons_self p d')⟩) ?_
      exact hasWord_replaceWordAux_self (hv p (List.mem_cons_self p d'))
        (hcross p (List.mem_cons_self p d') p (List.mem_cons_self p d')) rfl
    · exact hasWord_dictFold_self
        (fun s hs => hv s (List.mem_cons_of_mem r hs))
        (fun s hs t ht => hcross s (List.mem_cons_of_mem r hs) t (List.mem_cons_of_mem r ht))
        p hp _

theorem replaceWordAux_no_match {k v : List Char} :
    ∀ {l acc : List Char}, hasWordAux k acc l = false →
      replaceWordAux k v acc l = acc.reverse ++ l
  | [], acc, h => by
    rw [hasWordAux_nil_eq] at h
    rw [replaceWordAux_nil_eq, List.append_nil]
    unfold emitWord
    rw [h]
    simp only [Bool.false_eq_true, if_false]
  | c :: cs, acc, h => by
    rw [hasWordAux_cons_eq] at h
    rw [replaceWordAux_cons_eq]
    split
    · rename_i hc
      rw [if_pos hc] at h
      rw [replaceWordAux_no_match h, List.reverse_cons, List.append_assoc]
      rfl
    · rename_i hc
      rw [if_neg hc] at h
      have h1 : lowerEq acc.reverse k = false := by
        cases hq : lowerEq acc.reverse k
        · rfl
        · rw [hq, Bool.true_or] at h
          exact absurd h (by decide)
      have h2 : hasWordAux k [] cs = false := by
        cases hq : hasWordAux k [] cs
        · rfl
        · rw [hq, Bool.or_true] at h
          exact absurd h (by decide)
      unfold emitWord
      rw [h1]
      simp only [Bool.false_eq_true, if_false]
      rw [replaceWordAux_no_match h2]
      rfl

theorem replaceWord_eq_self {k v l : List Char} (h : hasWord k l = false) :
    replaceWord k v l = l :=
  replaceWordAux_no_match h

theorem dictFold_eq_self :
    ∀ {d : List (String × String)} {l : List Char},
      (∀ p ∈ d, hasWord p.1.toList l = false) → dictFold d l = l
  | [], l, _ => rfl
  | p :: d', l, h => by
    rw [dictFold_cons_eq, replaceWord_eq_self (h p (List.mem_cons_self p d'))]
    exact dictFold_eq_self (fun q hq => h q (List.mem_cons_of_mem p hq))

/-! ### Invariants of the cleaned and corrected text -/

theorem allowed_cleanText {q : List Char} : ∀ c ∈ cleanText q, allowedChar c = true := by
  intro c hc
  unfold cleanText toLowerStr at hc
  rcases List.mem_map.mp hc with ⟨d, hd, hcd⟩
  have hd2 : d ∈ stripDisallowed (collapseWs (jsTrim q)) :=
    mem_collapsePunct (mem_collapseReps hd)
  have hall : allowedChar d = true := (List.mem_filter.mp hd2).2
  rw [← hcd]
  exact allowedChar_jsToLower hall

theorem lower_fix_cleanText {q : List Char} : ∀ c ∈ cleanText q, jsToLower c = c := by
  intro c hc
  unfold cleanText toLowerStr at hc
  rcases List.mem_map.mp hc with ⟨d, _, hcd⟩
  rw [← hcd]
  exact jsToLower_idem d

theorem noAdjPunct_cleanText (q : List Char) : noAdjPunct (cleanText q) = true :=
  noAdjPunct_toLowerStr (noAdjPunct_collapseReps (noAdjPunct_collapsePunct _))

theorem agTerms_conds :
    ∀ p ∈ agricultureTerms,
      p.1.toList ≠ [] ∧ p.2.toList.all isWordChar = true ∧ p.2.toList ≠ [] := by decide

theorem agTerms_values_word : ∀ p ∈ agricultureTerms, p.2.toList.all isWordChar = true := by
  decide

theorem agTerms_cross :
    ∀ r ∈ agricultureTerms, ∀ s ∈ agricultureTerms,
      lowerEq r.2.toList s.1.toList = false := by decide

theorem agTerms_values_allowed :
    ∀ p ∈ agricultureTerms, ∀ c ∈ p.2.toList, allowedChar c = true := by decide

theorem agTerms_values_lower :
    ∀ p ∈ agricultureTerms, ∀ c ∈ p.2.toList, jsToLower c = c := by decide

theorem allowed_corrected {q : List Char} :
    ∀ c ∈ correctAgricultureTerms (cleanText q), allowedChar c = true := by
  intro c hc
  rw [correct_eq_dictFold] at hc
  rcases mem_dictFold hc with hc | ⟨p, hp, hc⟩
  · exact allowed_cleanText c hc
  · exact agTerms_values_allowed p hp c hc

theorem lower_fix_corrected {q : List Char} :
    ∀ c ∈ correctAgricultureTerms (cleanText q), jsToLower c = c := by
  intro c hc
  rw [correct_eq_dictFold] at hc
  rcases mem_dictFold hc with hc | ⟨p, hp, hc⟩
  · exact lower_fix_cleanText c hc
  · exact agTerms_values_lower p hp c hc

theorem noAdjPunct_corrected (q : List Char) :
    noAdjPunct (correctAgricultureTerms (cleanText q)) = true := by
  rw [correct_eq_dictFold]
  exact noAdjPunct_dictFold agTerms_conds (noAdjPunct_cleanText q)

theorem noWord_corrected (q : List Char) :
    ∀ p ∈ agricultureTerms,
      hasWord p.1.toList (correctAgricultureTerms (cleanText q)) = false := by
  intro p hp
  rw [correct_eq_dictFold]
  exact hasWord_dictFold_self agTerms_values_word agTerms_cross p hp _

theorem correct_fix (q : List Char) :
    correctAgricultureTerms (correctAgricultureTerms (cleanText q)) =
      correctAgricultureTerms (cleanText q) := by
  conv_lhs => rw [correct_eq_dictFold]
  exact dictFold_eq_self (fun p hp => noWord_corrected q p hp)

theorem correct_cleanText_idem (q : List Char)
    (h1 : collapseWs (jsTrim (correctAgricultureTerms (cleanText q))) =
      correctAgricultureTerms (cleanText q))
    (h2 : collapseReps (correctAgricultureTerms (cleanText q)) =
      correctAgricultureTerms (cleanText q)) :
    correctAgricultureTerms (cleanText (correctAgricultureTerms (cleanText q))) =
      correctAgricultureTerms (cleanText q) := by
  have hfix : ∀ x : List Char, collapseWs (jsTrim x) = x →
      (∀ c ∈ x, allowedChar c = true) → noAdjPunct x = true →
      collapseReps x = x → (∀ c ∈ x, jsToLower c = c) → cleanText x = x := by
    intro x e1 e2 e3 e4 e5
    unfold cleanText
    rw [e1, stripDisallowed_eq_self e2, collapsePunct_eq_self e3, e4, toLowerStr_eq_self e5]
  rw [hfix (correctAgricultureTerms (cleanText q)) h1 allowed_corrected
    (noAdjPunct_corrected q) h2 lower_fix_corrected]
  exact correct_fix q

/-- C10 counterexample: the Normalizer is not idempotent.  For the
input "a @ b" the stripped `@` leaves a double space in the cleaned
text ("a  b"), which a second application collapses to "a b". -/
theorem normalizer_not_idempotent :
    normalizeText (normalizeText "a @ b".toList) ≠ normalizeText "a @ b".toList := by
  decide

/-- The Normalizer as a text map is the cleaning chain followed by the
misspelling-correction dictionary pass. -/
theorem normalizeText_eq (m : List Char) :
    normalizeText m = correctAgricultureTerms (cleanText m) :=
  preprocess_cleanedText_eq m

/-- C10 amended: the claim says the Normalizer's text cleaning is
idempotent, which is false (`normalizer_not_idempotent`): stripping
disallowed characters runs after whitespace collapsing and can surface
new adjacent spaces, and lowercasing runs after the repeated-character
reduction and can surface new runs of four or more equal characters.
These two are the only obstructions: whenever the normalized text is a
fixpoint of trim-plus-whitespace-collapsing and of the
repeated-character reduction, applying the Normalizer to its own output
returns that output unchanged. -/
theorem normalizer_conditionally_idempotent (q : List Char)
    (h1 : collapseWs (jsTrim (normalizeText q)) = normalizeText q)
    (h2 : collapseReps (normalizeText q) = normalizeText q) :
    normalizeText (normalizeText q) = normalizeText q := by
  rw [normalizeText_eq q] at h1 h2
  rw [normalizeText_eq, normalizeText_eq q]
  exact correct_cleanText_idem q h1 h2

/-- Witness for the amended C10 at a concrete input exercising the
punctuation collapse and the dictionary ('Pani do!!' normalizes to
'water do!', which is stable). -/
theorem normalizer_conditionally_idempotent_witness :
    collapseWs (jsTrim (normalizeText "Pani do!!".toList)) =
      normalizeText "Pani do!!".toList ∧
    collapseReps (normalizeText "Pani do!!".toList) = normalizeText "Pani do!!".toList ∧
    normalizeText (normalizeText "Pani do!!".toList) = normalizeText "Pani do!!".toList :=
  ⟨by decide, by decide,
   normalizer_conditionally_idempotent "Pani do!!".toList (by decide) (by decide)⟩

/-! ## Factual basis (C3) -/

/-- C3 amended: the high/medium/low iff-characterisation holds for the
label computed by `assessFactualBasis` (the grounded branch); pipeline
branches that bypass the assessor assign fixed labels instead. -/
theorem assessFactualBasis_characterization (data : List RetrievedData) :
    (assessFactualBasis data = .high ↔ 2 ≤ freshCount data) ∧
    (assessFactualBasis data = .medium ↔ freshCount data < 2 ∧ 2 ≤ data.length) ∧
    (assessFactualBasis data = .low ↔ freshCount data < 2 ∧ data.length < 2) := by
  by_cases h1 : 2 ≤ freshCount data
  · have hres : assessFactualBasis data = .high := by
      unfold freshCount at h1
      unfold assessFactualBasis
      rw [if_pos h1]
    rw [hres]
    exact ⟨⟨fun _ => h1, fun _ => rfl⟩,
           ⟨(fun h => nomatch h), fun h => absurd h1 (by omega)⟩,
           ⟨(fun h => nomatch h), fun h => absurd h1 (by omega)⟩⟩
  · by_cases h2 : 2 ≤ data.length
    · have hres : assessFactualBasis data = .medium := by
        unfold freshCount at h1
        unfold assessFactualBasis
        rw [if_neg h1, if_pos h2]
      rw [hres]
      exact ⟨⟨(fun h => nomatch h), fun hge => absurd hge h1⟩,
             ⟨fun _ => ⟨by omega, h2⟩, fun _ => rfl⟩,
             ⟨(fun h => nomatch h), fun h => absurd h2 (by omega)⟩⟩
    · have hres : assessFactualBasis data = .low := by
        unfold freshCount at h1
        unfold assessFactualBasis
        rw [if_neg h1, if_neg h2]
      rw [hres]
      exact ⟨⟨(fun h => nomatch h), fun hge => absurd hge h1⟩,
             ⟨(fun h => nomatch h), fun h => absurd h.2 h2⟩,
             ⟨fun _ => ⟨by omega, by omega⟩, fun _ => rfl⟩⟩

/-- C3 counterexample: the claim quantifies over every response the
pipeline produces, but the no-grounding branch (ragSystem.ts 136–145)
builds a response with `factualBasis = 'medium'` and zero sources — the
claimed rule demands `'low'` whenever there are fewer than two sources.
The violation survives `formatFarmerFriendlyResponse`, which rewrites
only the answer text. -/
theorem factual_basis_rule_counterexample :
    ¬ claimedBasisRule (formatFarmerFriendlyResponse (ungroundedResponse "ok") [] "en" "q") := by
  intro h
  have hs : (formatFarmerFriendlyResponse (ungroundedResponse "ok") [] "en" "q").sources
      = [] := rfl
  have hb : (formatFarmerFriendlyResponse (ungroundedResponse "ok") [] "en" "q").factualBasis
      = .medium := rfl
  have h2 := (h.2.1).mp hb
  rw [hs] at h2
  simp [freshSrcCount] at h2

/-! ## Confidence score (C4) -/

theorem freshBoost_nonneg (data : List RetrievedData) : 0 ≤ freshBoost data := by
  unfold freshBoost
  split_ifs
  · positivity
  · exact le_refl 0

theorem cropBoost_nonneg (data : List RetrievedData) (ctx : QueryContext) :
    0 ≤ cropBoost data ctx := by
  unfold cropBoost
  cases ctx.crop <;> simp <;> split_ifs <;> norm_num

theorem locBoost_nonneg (data : List RetrievedData) (ctx : QueryContext) :
    0 ≤ locBoost data ctx := by
  unfold locBoost
  cases ctx.location <;> simp <;> split_ifs <;> norm_num

theorem divBoost_nonneg (data : List RetrievedData) : 0 ≤ divBoost data := by
  unfold divBoost
  apply le_min
  · positivity
  · norm_num

theorem calculateDynamicConfidence_closed (data : List RetrievedData) (ctx : QueryContext) :
    calculateDynamicConfidence data ctx =
      min ((1 : ℚ)/2 + freshBoost data + cropBoost data ctx + locBoost data ctx
           + divBoost data) (19/20) := by
  unfold calculateDynamicConfidence freshBoost cropBoost locBoost divBoost freshCount
  rcases hc : ctx.crop with _ | crop <;> rcases hl : ctx.location with _ | loc <;>
    by_cases h0 : 0 < data.length <;> simp [h0] <;> split_ifs <;>
    first | (congr 1; ring) | ring_nf

theorem find?_isSome_eq_of_shape (p : RetrievedData → Bool)
    (hp : ∀ d1 d2, dataShape d1 = dataShape d2 → p d1 = p d2) :
    ∀ l1 l2 : List RetrievedData, l1.map dataShape = l2.map dataShape →
      (l1.find? p).isSome = (l2.find? p).isSome := by
  intro l1
  induction l1 with
  | nil => intro l2 h; cases l2 <;> simp_all
  | cons d1 t1 ih =>
    intro l2 h
    cases l2 with
    | nil => simp at h
    | cons d2 t2 =>
      simp only [List.map_cons, List.cons.injEq] at h
      have hd := hp d1 d2 h.1
      cases hpd : p d2 with
      | true => simp [List.find?_cons, hd, hpd]
      | false => simpa [List.find?_cons, hd, hpd] using ih t2 h.2

/-- C4: the confidence score equals the claimed closed form (base 0.5,
fresh-fraction boost up to +0.30, +0.15 crop match, +0.10 location
match, +0.05 per distinct source type capped at +0.20, all capped at
0.95); it always lies in `[0, 0.95]`; and it is monotone non-decreasing
in the number of fresh sources when everything except the freshness
marks is held fixed. -/
theorem confidence_bounds_and_monotonicity :
    (∀ (data : List RetrievedData) (ctx : QueryContext),
      calculateDynamicConfidence data ctx =
        min ((1 : ℚ)/2 + freshBoost data + cropBoost data ctx + locBoost data ctx
             + divBoost data) (19/20)) ∧
    (∀ (data : List RetrievedData) (ctx : QueryContext),
      0 ≤ calculateDynamicConfidence data ctx ∧
      calculateDynamicConfidence data ctx ≤ 19/20) ∧
    (∀ (l1 l2 : List RetrievedData) (ctx : QueryContext),
      l1.map dataShape = l2.map dataShape → freshCount l1 ≤ freshCount l2 →
      calculateDynamicConfidence l1 ctx ≤ calculateDynamicConfidence l2 ctx) := by
  refine ⟨calculateDynamicConfidence_closed, ?_, ?_⟩
  · intro data ctx
    rw [calculateDynamicConfidence_closed]
    constructor
    · apply le_min
      · have h1 := freshBoost_nonneg data
        have h2 := cropBoost_nonneg data ctx
        have h3 := locBoost_nonneg data ctx
        have h4 := divBoost_nonneg data
        linarith
      · norm_num
    · exact min_le_right _ _
  · intro l1 l2 ctx hshape hfresh
    have hlen : l1.length = l2.length := by
      have := congrArg List.length hshape
      simpa using this
    have htypes : l1.map (fun d => d.type) = l2.map (fun d => d.type) := by
      have := congrArg (List.map (fun x =>
        (x : String × String × Payload × ℚ × Nat × Option LocationInfo ×
          Option Nat × String).2.1)) hshape
      simpa [List.map_map] using this
    have hcrop : cropBoost l1 ctx = cropBoost l2 ctx := by
      rcases hc : ctx.crop with _ | crop
      · simp [cropBoost, hc]
      · have hfind := find?_isSome_eq_of_shape
          (fun d => d.type == "market" && d.data.requestedCrop? == some crop.name)
          (fun d1 d2 hd => by
            have ht : d1.type = d2.type := congrArg (fun x =>
              (x : String × String × Payload × ℚ × Nat × Option LocationInfo ×
                Option Nat × String).2.1) hd
            have hdd : d1.data = d2.data := congrArg (fun x =>
              (x : String × String × Payload × ℚ × Nat × Option LocationInfo ×
                Option Nat × String).2.2.1) hd
            simp only [ht, hdd])
          l1 l2 hshape
        simp only [cropBoost, hc]
        rw [hfind]
    have hloc : locBoost l1 ctx = locBoost l2 ctx := by
      rcases hc : ctx.location with _ | cloc
      · simp [locBoost, hc]
      · have hfind := find?_isSome_eq_of_shape
          (fun d =>
            match d.location with
            | some dl => dl.state == cloc.state || dl.district == cloc.district
            | none => false)
          (fun d1 d2 hd => by
            have hl : d1.location = d2.location := congrArg (fun x =>
              (x : String × String × Payload × ℚ × Nat × Option LocationInfo ×
                Option Nat × String).2.2.2.2.2.1) hd
            simp only [hl])
          l1 l2 hshape
        simp only [locBoost, hc]
        rw [hfind]
    have hdiv : divBoost l1 = divBoost l2 := by
      unfold divBoost
      rw [htypes]
    have hfb : freshBoost l1 ≤ freshBoost l2 := by
      unfold freshBoost
      rcases Nat.eq_zero_or_pos l1.length with h0 | h0
      · have h0' : l2.length = 0 := by omega
        rw [if_neg (by omega), if_neg (by omega)]
      · rw [if_pos h0, if_pos (by omega : 0 < l2.length), ← hlen]
        apply mul_le_mul_of_nonneg_right _ (by norm_num)
        have hc : (0 : ℚ) < (l1.length : ℚ) := by exact_mod_cast h0
        exact (div_le_div_right hc).mpr (by exact_mod_cast hfresh)
    rw [calculateDynamicConfidence_closed, calculateDynamicConfidence_closed]
    apply min_le_min _ le_rfl
    rw [hcrop, hloc, hdiv]
    linarith

/-! ## Retrieval orchestration and the cache (C7, C8) -/

theorem append_ne_of_take2 (p q : String)
    (hp : 2 ≤ p.data.length) (hq : 2 ≤ q.data.length)
    (hne : p.data.take 2 ≠ q.data.take 2) (x y : String) : p ++ x ≠ q ++ y := by
  intro h
  have hd := congrArg String.data h
  rw [String.data_append, String.data_append] at hd
  have h2 := congrArg (List.take 2) hd
  rw [List.take_append_of_le_length hp, List.take_append_of_le_length hq] at h2
  exact hne h2

theorem weatherKey_ne_advisoryKey (l l' : LocationInfo) (c : Option CropInfo) :
    weatherKey l ≠ advisoryKey l' c := by
  unfold weatherKey advisoryKey
  exact append_ne_of_take2 _ _ (by decide) (by decide) (by decide) _ _

theorem weatherKey_ne_soilKey (l l' : LocationInfo) :
    weatherKey l ≠ soilKey l' := by
  unfold weatherKey soilKey
  exact append_ne_of_take2 _ _ (by decide) (by decide) (by decide) _ _

theorem advisoryKey_ne_soilKey (l l' : LocationInfo) (c : Option CropInfo) :
    advisoryKey l c ≠ soilKey l' := by
  unfold advisoryKey soilKey
  exact append_ne_of_take2 _ _ (by decide) (by decide) (by decide) _ _

theorem weatherKey_ne_schemeKey (l l' : LocationInfo) :
    weatherKey l ≠ schemeKey l' := by
  unfold weatherKey schemeKey
  exact append_ne_of_take2 _ _ (by decide) (by decide) (by decide) _ _

theorem advisoryKey_ne_schemeKey (l l' : LocationInfo) (c : Option CropInfo) :
    advisoryKey l c ≠ schemeKey l' := by
  unfold advisoryKey schemeKey
  exact append_ne_of_take2 _ _ (by decide) (by decide) (by decide) _ _

theorem soilKey_ne_schemeKey (l l' : LocationInfo) :
    soilKey l ≠ schemeKey l' := by
  unfold soilKey schemeKey
  exact append_ne_of_take2 _ _ (by decide) (by decide) (by decide) _ _

/-- An entry stored under a different key does not affect a lookup. -/
theorem getFromCache_cons_ne (k' : String) (e : CacheEntry) (cache : Cache)
    (now : Nat) (key : String) (h : k' ≠ key) :
    getFromCache ((k', e) :: cache) now key = getFromCache cache now key := by
  unfold getFromCache
  have hk : (key == k') = false := beq_eq_false_iff_ne.mpr (Ne.symm h)
  simp [List.lookup, hk]

theorem retrieveWeatherData_types (cache : Cache) (now : Nat) (loc : LocationInfo)
    (gen : WeatherPayload)
    (hw : ∀ d, getFromCache cache now (weatherKey loc) = some d → d.type = "weather") :
    (∃ d ∈ (retrieveWeatherData cache now loc gen).1, d.type = "weather") ∧
    (∀ d ∈ (retrieveWeatherData cache now loc gen).1, d.type = "weather") ∧
    ((retrieveWeatherData cache now loc gen).2 = cache ∨
      ∃ e, (retrieveWeatherData cache now loc gen).2 = (weatherKey loc, e) :: cache) := by
  simp only [retrieveWeatherData]
  rcases hch : getFromCache cache now (weatherKey loc) with _ | c
  · dsimp only
    refine ⟨?_, ?_, Or.inr ⟨_, rfl⟩⟩
    · exact ⟨_, List.mem_singleton_self _, rfl⟩
    · intro d hd
      rw [List.mem_singleton] at hd
      subst hd
      rfl
  · dsimp only
    refine ⟨?_, ?_, Or.inl rfl⟩
    · exact ⟨c, List.mem_singleton_self c, hw c hch⟩
    · intro d hd
      rw [List.mem_singleton] at hd
      subst hd
      exact hw d hch

theorem retrieveAdvisoryData_types (cache : Cache) (now : Nat) (loc : LocationInfo)
    (crop : Option CropInfo) (gen : AdvisoryPayload)
    (ha : ∀ d, getFromCache cache now (advisoryKey loc crop) = some d →
      d.type = "advisory") :
    (∀ d ∈ (retrieveAdvisoryData cache now loc crop gen).1, d.type = "advisory") ∧
    ((retrieveAdvisoryData cache now loc crop gen).2 = cache ∨
      ∃ e, (retrieveAdvisoryData cache now loc crop gen).2 =
        (advisoryKey loc crop, e) :: cache) := by
  simp only [retrieveAdvisoryData]
  rcases hch : getFromCache cache now (advisoryKey loc crop) with _ | c
  · dsimp only
    refine ⟨?_, Or.inr ⟨_, rfl⟩⟩
    intro d hd
    rw [List.mem_singleton] at hd
    subst hd
    rfl
  · dsimp only
    refine ⟨?_, Or.inl rfl⟩
    intro d hd
    rw [List.mem_singleton] at hd
    subst hd
    exact ha d hch

theorem retrieveSoilData_types (cache : Cache) (now : Nat) (loc : LocationInfo)
    (gen : SoilPayload)
    (hs : ∀ d, getFromCache cache now (soilKey loc) = some d → d.type = "soil") :
    (∀ d ∈ (retrieveSoilData cache now loc gen).1, d.type = "soil") ∧
    ((retrieveSoilData cache now loc gen).2 = cache ∨
      ∃ e, (retrieveSoilData cache now loc gen).2 = (soilKey loc, e) :: cache) := by
  simp only [retrieveSoilData]
  rcases hch : getFromCache cache now (soilKey loc) with _ | c
  · dsimp only
    refine ⟨?_, Or.inr ⟨_, rfl⟩⟩
    intro d hd
    rw [List.mem_singleton] at hd
    subst hd
    rfl
  · dsimp only
    refine ⟨?_, Or.inl rfl⟩
    intro d hd
    rw [List.mem_singleton] at hd
    subst hd
    exact hs d hch

theorem retrieveSchemeData_types (cache : Cache) (now : Nat) (loc : LocationInfo)
    (gen : SchemePayload)
    (hs : ∀ d, getFromCache cache now (schemeKey loc) = some d → d.type = "scheme") :
    (∀ d ∈ (retrieveSchemeData cache now loc gen).1, d.type = "scheme") := by
  simp only [retrieveSchemeData]
  rcases hch : getFromCache cache now (schemeKey loc) with _ | c
  · dsimp only
    intro d hd
    rw [List.mem_singleton] at hd
    subst hd
    rfl
  · dsimp only
    intro d hd
    rw [List.mem_singleton] at hd
    subst hd
    exact hs d hch

/-- C7: for a context with a known location, no crop and no
market/price query type, the orchestration always yields a weather
datum and never a market datum; without a location it yields nothing.
The cache hypotheses say that any entry retrievable under an agent's
key carries that agent's data type — the invariant every `setCache`
call site maintains. -/
theorem retrieveAll_weather_no_market (env : AgentEnv) (cache : Cache) (now : Nat)
    (ctx : QueryContext) (loc : LocationInfo)
    (hloc : ctx.location = some loc)
    (hcrop : ctx.crop = none)
    (hm : ctx.queryType.contains "market" = false)
    (hp : ctx.queryType.contains "price" = false)
    (hw : ∀ d, getFromCache cache now (weatherKey loc) = some d → d.type = "weather")
    (ha : ∀ d, getFromCache cache now (advisoryKey loc ctx.crop) = some d →
      d.type = "advisory")
    (hs : ∀ d, getFromCache cache now (soilKey loc) = some d → d.type = "soil")
    (hsc : ∀ d, getFromCache cache now (schemeKey loc) = some d → d.type = "scheme") :
    (∃ d ∈ (retrieveAllRelevantData env cache now ctx).1, d.type = "weather") ∧
    (∀ d ∈ (retrieveAllRelevantData env cache now ctx).1, d.type ≠ "market") ∧
    (∀ ctx' : QueryContext, ctx'.location = none →
      (retrieveAllRelevantData env cache now ctx').1 = []) := by
  have hnoloc : ∀ ctx' : QueryContext, ctx'.location = none →
      (retrieveAllRelevantData env cache now ctx').1 = [] := by
    intro ctx' h
    simp [retrieveAllRelevantData, h]
  rw [hcrop] at ha
  obtain ⟨⟨dw, hdw, hdwt⟩, hwall, hc1⟩ :=
    retrieveWeatherData_types cache now loc env.weatherGen hw
  -- the advisory lookup is unaffected by the weather entry
  have ha1 : ∀ d, getFromCache (retrieveWeatherData cache now loc env.weatherGen).2
      now (advisoryKey loc none) = some d → d.type = "advisory" := by
    rcases hc1 with h1 | ⟨e, h1⟩ <;> rw [h1]
    · exact ha
    · intro d hd
      rw [getFromCache_cons_ne _ _ _ _ _ (weatherKey_ne_advisoryKey loc loc none)] at hd
      exact ha d hd
  obtain ⟨haall, hc2⟩ :=
    retrieveAdvisoryData_types _ now loc none (env.advisoryGen none) ha1
  -- the soil lookup is unaffected by the weather and advisory entries
  have hs1 : ∀ d, getFromCache
      (retrieveAdvisoryData (retrieveWeatherData cache now loc env.weatherGen).2
        now loc none (env.advisoryGen none)).2 now (soilKey loc) = some d →
      d.type = "soil" := by
    have hsW : ∀ d, getFromCache (retrieveWeatherData cache now loc env.weatherGen).2
        now (soilKey loc) = some d → d.type = "soil" := by
      rcases hc1 with h1 | ⟨e, h1⟩ <;> rw [h1]
      · exact hs
      · intro d hd
        rw [getFromCache_cons_ne _ _ _ _ _ (weatherKey_ne_soilKey loc loc)] at hd
        exact hs d hd
    rcases hc2 with h2 | ⟨e, h2⟩ <;> rw [h2]
    · exact hsW
    · intro d hd
      rw [getFromCache_cons_ne _ _ _ _ _ (advisoryKey_ne_soilKey loc loc none)] at hd
      exact hsW d hd
  -- the scheme lookup is unaffected by the other entries
  have hsc1 : ∀ cachemid : Cache,
      (cachemid = (retrieveAdvisoryData (retrieveWeatherData cache now loc
          env.weatherGen).2 now loc none (env.advisoryGen none)).2 ∨
        ∃ e, cachemid = (soilKey loc, e) ::
          (retrieveAdvisoryData (retrieveWeatherData cache now loc
            env.weatherGen).2 now loc none (env.advisoryGen none)).2) →
      ∀ d, getFromCache cachemid now (schemeKey loc) = some d →
        d.type = "scheme" := by
    have hscA : ∀ d, getFromCache
        (retrieveAdvisoryData (retrieveWeatherData cache now loc env.weatherGen).2
          now loc none (env.advisoryGen none)).2 now (schemeKey loc) = some d →
        d.type = "scheme" := by
      have hscW : ∀ d, getFromCache (retrieveWeatherData cache now loc env.weatherGen).2
          now (schemeKey loc) = some d → d.type = "scheme" := by
        rcases hc1 with h1 | ⟨e, h1⟩ <;> rw [h1]
        · exact hsc
        · intro d hd
          rw [getFromCache_cons_ne _ _ _ _ _ (weatherKey_ne_schemeKey loc loc)] at hd
          exact hsc d hd
      rcases hc2 with h2 | ⟨e, h2⟩ <;> rw [h2]
      · exact hscW
      · intro d hd
        rw [getFromCache_cons_ne _ _ _ _ _ (advisoryKey_ne_schemeKey loc loc none)] at hd
        exact hscW d hd
    rintro cachemid (rfl | ⟨e, rfl⟩)
    · exact hscA
    · intro d hd
      rw [getFromCache_cons_ne _ _ _ _ _ (soilKey_ne_schemeKey loc loc)] at hd
      exact hscA d hd
  refine ⟨?_, ?_, hnoloc⟩ <;>
  · simp only [retrieveAllRelevantData, hloc, hcrop, hm, hp]
    simp only [Option.isSome_none, Bool.false_or, Bool.or_self, if_false]
    by_cases hsoil :
        (ctx.queryType.contains "soil" || ctx.queryType.contains "fertilizer") = true <;>
      by_cases hscheme :
          (ctx.queryType.contains "scheme" || ctx.queryType.contains "subsidy") = true <;>
        simp only [hsoil, hscheme, if_true, if_false, ite_true, ite_false,
          Bool.false_eq_true] <;>
        first
        | exact ⟨dw, by simp [hdw], hdwt⟩
        | (intro d hd hmk
           simp only [List.append_nil, List.nil_append, List.mem_append] at hd
           repeat' rcases hd with hd | hd
           all_goals
             first
             | (rw [hwall d hd] at hmk; exact absurd hmk (by decide))
             | (rw [haall d hd] at hmk; exact absurd hmk (by decide))
             | (rw [(retrieveSoilData_types _ now loc env.soilGen hs1).1 d hd] at hmk
                exact absurd hmk (by decide))
             | (rw [retrieveSchemeData_types _ now loc env.schemeGen
                  (hsc1 _ (Or.inl rfl)) d hd] at hmk
                exact absurd hmk (by decide))
             | (rw [retrieveSchemeData_types _ now loc env.schemeGen
                  (hsc1 _ (retrieveSoilData_types _ now loc env.soilGen hs1).2) d hd] at hmk
                exact absurd hmk (by decide)))

/-- C8: cache invariants.  (1) Any hit is returned with freshness
downgraded to `cached`, whatever was stored.  (2) A hit on an entry
stored by `setCache` can only happen before the type-specific TTL
expires, and returns the stored payload.  (3) Two weather retrievals
for the same key within the TTL window: the first (a miss) returns a
fresh datum wrapping the first generated payload and caches it; the
second returns the same payload marked `cached`, ignoring the second
generated payload. -/
theorem cache_hit_invariants :
    (∀ (cache : Cache) (now : Nat) (key : String) (d : RetrievedData),
      getFromCache cache now key = some d → d.metadata.freshness = .cached) ∧
    (∀ (cache : Cache) (t0 : Nat) (key : String) (v : RetrievedData) (ty : String)
      (t1 : Nat) (d : RetrievedData),
      getFromCache (setCache cache t0 key v ty) t1 key = some d →
      t1 < t0 + cacheDuration ty ∧ d.data = v.data) ∧
    (∀ (cache : Cache) (t0 t1 : Nat) (loc : LocationInfo) (g1 g2 : WeatherPayload),
      getFromCache cache t0 (weatherKey loc) = none → t1 < t0 + 3600000 →
      ∃ d1 d2 c1,
        retrieveWeatherData cache t0 loc g1 = ([d1], c1) ∧
        retrieveWeatherData c1 t1 loc g2 = ([d2], c1) ∧
        d1.metadata.freshness = .fresh ∧
        d1.data = .weather g1 ∧
        d2.data = d1.data ∧
        d2.metadata.freshness = .cached) := by
  refine ⟨?_, ?_, ?_⟩
  · intro cache now key d h
    unfold getFromCache at h
    rcases hl : cache.lookup key with _ | e
    · rw [hl] at h
      simp at h
    · rw [hl] at h
      dsimp only at h
      split_ifs at h
      injection h with h2
      subst h2
      rfl
  · intro cache t0 key v ty t1 d h
    unfold getFromCache setCache at h
    have hlk : (((key, (⟨v, t0 + cacheDuration ty⟩ : CacheEntry)) :: cache : Cache)).lookup
        key = some ⟨v, t0 + cacheDuration ty⟩ := by
      simp [List.lookup]
    rw [hlk] at h
    dsimp only at h
    split_ifs at h with ht
    injection h with h2
    subst h2
    exact ⟨ht, rfl⟩
  · intro cache t0 t1 loc g1 g2 hmiss ht
    refine ⟨{ source := "Indian Meteorological Department", type := "weather"
              data := .weather g1, confidence := 9/10, timestamp := t0
              location := some loc
              metadata := { freshness := .fresh, reliability := "high" } },
            { source := "Indian Meteorological Department", type := "weather"
              data := .weather g1, confidence := 9/10, timestamp := t0
              location := some loc
              metadata := { freshness := .cached, cacheTime := some t0
                            reliability := "high" } },
            (weatherKey loc,
              ⟨{ source := "Indian Meteorological Department", type := "weather"
                 data := .weather g1, confidence := 9/10, timestamp := t0
                 location := some loc
                 metadata := { freshness := .fresh, reliability := "high" } },
               t0 + 3600000⟩) :: cache,
            ?_, ?_, rfl, rfl, rfl, rfl⟩
    · simp only [retrieveWeatherData, hmiss]
      rfl
    · have hget : getFromCache
          ((weatherKey loc,
            (⟨{ source := "Indian Meteorological Department", type := "weather"
                data := .weather g1, confidence := 9/10, timestamp := t0
                location := some loc
                metadata := { freshness := .fresh, reliability := "high" } },
              t0 + 3600000⟩ : CacheEntry)) :: cache) t1 (weatherKey loc) =
          some { source := "Indian Meteorological Department", type := "weather"
                 data := .weather g1, confidence := 9/10, timestamp := t0
                 location := some loc
                 metadata := { freshness := .cached, cacheTime := some t0
                               reliability := "high" } } := by
        unfold getFromCache
        have hlk : (((weatherKey loc,
            (⟨{ source := "Indian Meteorological Department", type := "weather"
                data := .weather g1, confidence := 9/10, timestamp := t0
                location := some loc
                metadata := { freshness := .fresh, reliability := "high" } },
              t0 + 3600000⟩ : CacheEntry)) :: cache) : Cache).lookup (weatherKey loc) =
            some ⟨{ source := "Indian Meteorological Department", type := "weather"
                    data := .weather g1, confidence := 9/10, timestamp := t0
                    location := some loc
                    metadata := { freshness := .fresh, reliability := "high" } },
                  t0 + 3600000⟩ := by
          simp [List.lookup]
        rw [hlk]
        dsimp only
        rw [if_pos ht]
      simp only [retrieveWeatherData, hget]

/-- Witness for C7 at a concrete input: empty cache, a located context
with no crop and no query types. -/
theorem retrieveAll_weather_no_market_witness :
    (∃ d ∈ (retrieveAllRelevantData demoAgentEnv [] 0
        ⟨some demoLoc, none, [], "en", 0⟩).1, d.type = "weather") ∧
    (∀ d ∈ (retrieveAllRelevantData demoAgentEnv [] 0
        ⟨some demoLoc, none, [], "en", 0⟩).1, d.type ≠ "market") :=
  ⟨(retrieveAll_weather_no_market demoAgentEnv [] 0 ⟨some demoLoc, none, [], "en", 0⟩
      demoLoc rfl rfl rfl rfl
      (fun _ h => Option.noConfusion h) (fun _ h => Option.noConfusion h)
      (fun _ h => Option.noConfusion h) (fun _ h => Option.noConfusion h)).1,
   (retrieveAll_weather_no_market demoAgentEnv [] 0 ⟨some demoLoc, none, [], "en", 0⟩
      demoLoc rfl rfl rfl rfl
      (fun _ h => Option.noConfusion h) (fun _ h => Option.noConfusion h)
      (fun _ h => Option.noConfusion h) (fun _ h => Option.noConfusion h)).2.1⟩

/-- Witness for C8 at a concrete input: a first weather retrieval at
time 0 on the empty cache and a second one at time 1000 (inside the
one-hour TTL) with a different generated payload. -/
theorem cache_hit_invariants_witness :
    ∃ d1 d2 c1,
      retrieveWeatherData [] 0 demoLoc demoWeather1 = ([d1], c1) ∧
      retrieveWeatherData c1 1000 demoLoc demoWeather2 = ([d2], c1) ∧
      d1.metadata.freshness = .fresh ∧
      d1.data = .weather demoWeather1 ∧
      d2.data = d1.data ∧
      d2.metadata.freshness = .cached :=
  cache_hit_invariants.2.2 [] 0 1000 demoLoc demoWeather1 demoWeather2 rfl (by decide)

/-! ## The generateAdvice pipeline (C1, C2, C5) -/

/-- On the online, un-cached path a valid query always reaches the
dereference of the absent `extractedContext` and throws. -/
theorem ragTry_faults (env : RagEnv) (query language : String)
    (h1 : env.cachedResponse = none) (h2 : env.online = true)
    (h3 : (preprocessQuery query.toList).isValid = true) :
    ragTry env query language = (.error .typeError, []) := by
  have h3' : (preprocessQuery query.data).isValid = true := h3
  have hec : (preprocessQuery query.data).extractedContext = none := rfl
  simp [ragTry, h1, h2, h3', hec]

/-- C2: `preprocessQuery` never sets `extractedContext` (the object
literal it returns omits the field the interface declares), so on the
online, un-cached path every valid query reaches
`constructInitialPrompt`, whose dereference of the undefined context
throws; the outer catch then returns the catch-all fallback advisory,
which carries confidence 0.4, factual basis `low` and no sources. -/
theorem extractedContext_missing_forces_fallback :
    (∀ q : List Char, (preprocessQuery q).extractedContext = none) ∧
    (∀ (env : RagEnv) (query language : String),
      env.cachedResponse = none → env.online = true →
      (preprocessQuery query.toList).isValid = true →
      generateAdvice env query language =
        (getFallbackAdvisory query language "System temporarily unavailable", [])) ∧
    (∀ query language : String,
      (getFallbackAdvisory query language "System temporarily unavailable").confidence
          = 2/5 ∧
      (getFallbackAdvisory query language "System temporarily unavailable").factualBasis
          = .low ∧
      (getFallbackAdvisory query language "System temporarily unavailable").sources
          = []) := by
  refine ⟨fun q => rfl, ?_, fun q l => ⟨rfl, rfl, rfl⟩⟩
  intro env query language h1 h2 h3
  unfold generateAdvice
  rw [ragTry_faults env query language h1 h2 h3]

/-- Witness for C2 at a concrete input: a valid online query with no
cached response faults and produces the fallback advisory. -/
theorem extractedContext_missing_witness :
    generateAdvice demoRagEnv "wheat price" "en" =
      (getFallbackAdvisory "wheat price" "en" "System temporarily unavailable", []) :=
  extractedContext_missing_forces_fallback.2.1 demoRagEnv "wheat price" "en"
    rfl rfl (by decide)

/-- The precondition of the C2 witness, checked by evaluation. -/
theorem wheat_price_query_is_valid :
    (preprocessQuery "wheat price".toList).isValid = true := by decide

/-- C1: any exception escaping the `try` block of `generateAdvice` is
converted into the catch-all fallback advisory with the same effect
trace, the `try` block itself always yields either a response or such
an exception (never a hang or re-throw), and a failing external
generation call (a thrown invocation or an error result) is replaced by
the fixed apology string. -/
theorem generateAdvice_never_throws :
    (∀ (env : RagEnv) (query language : String) (e : PErr) (effs : List Effect),
      ragTry env query language = (.error e, effs) →
      generateAdvice env query language =
        (getFallbackAdvisory query language "System temporarily unavailable", effs)) ∧
    (∀ (env : RagEnv) (query language : String),
      (∃ r effs, ragTry env query language = (.ok r, effs)) ∨
      (∃ e effs, ragTry env query language = (.error e, effs))) ∧
    (∀ (env : RagEnv) (prompt : String),
      env.llm prompt = .thrown ∨ env.llm prompt = .errorResult →
      callLLM env prompt = apologyText) := by
  refine ⟨?_, ?_, ?_⟩
  · intro env q l e effs h
    unfold generateAdvice
    rw [h]
  · intro env q l
    rcases h : ragTry env q l with ⟨e | r, effs⟩
    · exact Or.inr ⟨e, effs, rfl⟩
    · exact Or.inl ⟨r, effs, rfl⟩
  · intro env prompt h
    rcases h with h | h <;> simp [callLLM, h]

/-- Witness for C1 at concrete inputs: a valid online query whose run
throws (so the fallback is returned), and an environment whose
generation endpoint throws (so the apology is returned). -/
theorem generateAdvice_never_throws_witness :
    generateAdvice demoRagEnv "wheat price" "en" =
      (getFallbackAdvisory "wheat price" "en" "System temporarily unavailable", []) ∧
    callLLM demoFailLLMEnv "any prompt" = apologyText :=
  ⟨generateAdvice_never_throws.1 demoRagEnv "wheat price" "en" .typeError []
     (ragTry_faults demoRagEnv "wheat price" "en" rfl rfl wheat_price_query_is_valid),
   generateAdvice_never_throws.2.2 demoFailLLMEnv "any prompt" (Or.inl rfl)⟩

/-- C5: a cleaned text shorter than three characters or containing no
letter of the validation character class makes `preprocessQuery` mark
the query invalid with a non-empty error message; an invalid query
makes `generateAdvice` perform no retrieval attempt and no generation
call (its effect trace is empty), and on the online, un-cached path it
returns the `Invalid query format` fallback advisory. -/
theorem invalid_query_fails_fast :
    (∀ q : List Char,
      ((preprocessQuery q).cleanedText.length < 3 ∨
        (∀ c ∈ (preprocessQuery q).cleanedText, validLetter c = false)) →
      (preprocessQuery q).isValid = false ∧
      ∃ msg, (preprocessQuery q).error = some msg ∧ msg ≠ "") ∧
    (∀ (env : RagEnv) (query language : String),
      (preprocessQuery query.toList).isValid = false →
      (generateAdvice env query language).2 = [] ∧
      (env.cachedResponse = none → env.online = true →
        generateAdvice env query language =
          (getFallbackAdvisory query language "Invalid query format", []))) := by
  constructor
  · intro q h
    have hvalid : (preprocessQuery q).isValid = false := by
      rw [preprocess_isValid_eq]
      rcases h with h | h
      · rw [preprocess_cleanedText_eq] at h
        rw [decide_eq_false (by omega : ¬ 3 ≤ (correctAgricultureTerms (cleanText q)).length)]
        rfl
      · have h2 : ∀ c ∈ correctAgricultureTerms (cleanText q), validLetter c = false := by
          intro c hc
          exact h c (by rw [preprocess_cleanedText_eq]; exact hc)
        rw [List.any_eq_false.mpr (by simpa using h2), Bool.and_false]
    refine ⟨hvalid, "Please enter a valid farming question (minimum 3 characters with letters)",
      ?_, by decide⟩
    rw [preprocess_error_eq, hvalid]
    simp only [Bool.false_eq_true, if_false]
  · intro env query language hinv
    have hinv2 : (preprocessQuery query.data).isValid = false := hinv
    constructor
    · rcases hcr : env.cachedResponse with _ | cached <;>
        rcases ho : env.online with _ | _ <;>
          rcases hof : env.offlineFallback with _ | off <;>
            simp [generateAdvice, ragTry, hcr, ho, hof, hinv, hinv2]
    · intro h1 h2
      simp [generateAdvice, ragTry, h1, h2, hinv, hinv2]

/-- Witness for C5 at the two-character input "hi". -/
theorem invalid_query_fails_fast_witness :
    (preprocessQuery "hi".toList).isValid = false ∧
    (generateAdvice demoRagEnv "hi" "en").2 = [] ∧
    generateAdvice demoRagEnv "hi" "en" =
      (getFallbackAdvisory "hi" "en" "Invalid query format", []) :=
  ⟨(invalid_query_fails_fast.1 "hi".toList (Or.inl (by decide))).1,
   (invalid_query_fails_fast.2 demoRagEnv "hi" "en" (by decide)).1,
   (invalid_query_fails_fast.2 demoRagEnv "hi" "en" (by decide)).2 rfl rfl⟩

/-- Witness for the monotonicity part of C4 at a concrete input: the
same single-source batch with the freshness mark upgraded from stale
to fresh. -/
theorem confidence_monotonicity_witness :
    [demoDatumStale].map dataShape = [demoDatumFresh].map dataShape ∧
    freshCount [demoDatumStale] ≤ freshCount [demoDatumFresh] ∧
    calculateDynamicConfidence [demoDatumStale] demoCtx ≤
      calculateDynamicConfidence [demoDatumFresh] demoCtx :=
  ⟨rfl, by decide,
   confidence_bounds_and_monotonicity.2.2 [demoDatumStale] [demoDatumFresh] demoCtx
     rfl (by decide)⟩

end KrishiSakha
